import Mathlib

/-!
Shallow embedding of `vaspy/matstudio.py` (classes `XsdFile`, `ArcFile`,
`XtdFile`) and proofs about it.

Modelling conventions:
* The XML element tree is modelled structurally: `Atom3d` elements, the
  `SpaceGroup` elements, the `SymmetrySystem` elements and the root
  attributes are explicit; unrelated attributes and nodes are carried as
  opaque data that the operations never touch.
* Attribute values that the code parses with Python `float` are stored in
  the document in parsed form (`List ℚ`).  The code serializes floats with
  `str` and re-parses with `float`, and Python guarantees
  `float(str(x)) == x`, so at this semantic level serialize-then-reparse is
  the identity; the spec's notion of equality for those attributes is
  exactly "float equality after re-parsing".
* Python machine floats are modelled by `ℚ`; none of the verified claims
  depends on rounding behaviour of IEEE arithmetic (the code only parses,
  stores and re-prints the numbers, it never computes with them on the
  verified paths).
* Exceptions are modelled with `Except String`; the string is the
  exception's class/message.  `UnmatchedDataShape` (from `vaspy.errors`,
  outside the embedded file) is represented by its message strings.
* The ambient current working directory (`os.getcwd()`) is passed
  explicitly as a `cwd : String` argument.
-/

/-! ## Python string primitives used by the code -/

/-- Python `str.strip()`: drop whitespace from both ends.  (Implemented by
structural recursion over the character list so that it reduces inside the
kernel.) -/
def pyStrip (s : String) : String :=
  String.mk
    (((s.toList.dropWhile Char.isWhitespace).reverse.dropWhile
      Char.isWhitespace).reverse)

/-- Helper for `pySplit`: accumulate the current token (reversed). -/
def pySplitAux : List Char → List Char → List String
  | [], cur => if cur.isEmpty then [] else [String.mk cur.reverse]
  | c :: cs, cur =>
    if c.isWhitespace then
      (if cur.isEmpty then [] else [String.mk cur.reverse]) ++ pySplitAux cs []
    else pySplitAux cs (c :: cur)

/-- Python `str.split()` with no separator: split on whitespace runs,
dropping empty tokens. -/
def pySplit (s : String) : List String := pySplitAux s.toList []

/-- Python `s.startswith(pre)`. -/
def pyStartsWith (s pre : String) : Bool := pre.toList.isPrefixOf s.toList

/-- Split a character list on a separator character, keeping empty
segments (the semantics of Python `str.split(sep)`). -/
def splitOnChar (c : Char) : List Char → List (List Char)
  | [] => [[]]
  | x :: xs =>
    let r := splitOnChar c xs
    if x = c then [] :: r
    else
      match r with
      | [] => [[x]]
      | h :: t => (x :: h) :: t

/-- Numeric value of a digit list, most significant first. -/
def digitsToNat (cs : List Char) : ℕ :=
  cs.foldl (fun n c => 10 * n + (c.toNat - 48)) 0

/-- `10 ^ n` as a rational, via `Nat.pow` so that it kernel-reduces. -/
def pow10 (n : ℕ) : ℚ := ((10 ^ n : ℕ) : ℚ)

/-- Unsigned decimal mantissa: `digits`, `digits.digits`, `digits.` or
`.digits`. -/
def parseUnsignedMantissa (cs : List Char) : Option ℚ :=
  match splitOnChar '.' cs with
  | [ds] =>
    if ds ≠ [] ∧ ds.all Char.isDigit then some ((digitsToNat ds : ℚ)) else none
  | [ip, fp] =>
    if (ip ++ fp) ≠ [] ∧ (ip ++ fp).all Char.isDigit then
      some ((digitsToNat ip : ℚ) + (digitsToNat fp : ℚ) / pow10 fp.length)
    else none
  | _ => none

/-- Optionally signed digit string (used for the exponent part). -/
def parseSignedDigits (cs : List Char) : Option ℤ :=
  match cs with
  | '+' :: r =>
    if r ≠ [] ∧ r.all Char.isDigit then some ((digitsToNat r : ℤ)) else none
  | '-' :: r =>
    if r ≠ [] ∧ r.all Char.isDigit then some (-(digitsToNat r : ℤ)) else none
  | _ =>
    if cs ≠ [] ∧ cs.all Char.isDigit then some ((digitsToNat cs : ℤ)) else none

/-- Model of Python `float(s)` on the decimal notations the repository's
files use: optional surrounding whitespace, optional sign, decimal mantissa,
optional `e`/`E` exponent.  Returns `none` where `float` raises
`ValueError`.  (The exotic accepted spellings `inf`, `nan` and digit
underscores do not occur in this code's data and are not modelled.) -/
def parseFloat? (s : String) : Option ℚ :=
  let cs := (pyStrip s).toList.map Char.toLower
  let signAndRest : Bool × List Char :=
    match cs with
    | '+' :: r => (false, r)
    | '-' :: r => (true, r)
    | _ => (false, cs)
  let res : Option ℚ :=
    match splitOnChar 'e' signAndRest.2 with
    | [m] => parseUnsignedMantissa m
    | [m, ex] =>
      match parseUnsignedMantissa m, parseSignedDigits ex with
      | some mv, some ev =>
        some (if 0 ≤ ev then mv * pow10 ev.toNat else mv / pow10 (-ev).toNat)
      | _, _ => none
    | _ => none
  res.map (fun v => if signAndRest.1 then -v else v)

/-! ## The document model -/

/-- An `Atom3d` element of the document.  `components`, `xyz`,
`restricted`, `name` and `color` model the attributes the code reads or
writes (`Components`, `XYZ`, `RestrictedProperties`, `Name`, `Color`);
`others` carries every remaining attribute untouched.  `xyz` is the parsed
comma-separated float triple (`none` when the attribute is absent). -/
structure Atom3dElem where
  components : String
  xyz : Option (List ℚ)
  restricted : Option String
  name : Option String
  color : Option String
  others : List (String × String)
deriving Repr, DecidableEq

/-- A `SpaceGroup` element: the three axis-vector attributes in parsed
form, plus the untouched rest. -/
structure SpaceGroupElem where
  avec : List ℚ
  bvec : List ℚ
  cvec : List ℚ
  others : List (String × String)
deriving Repr, DecidableEq

/-- A `SymmetrySystem` element: its `Name` attribute (the packed metadata
string), plus the untouched rest. -/
structure SymSysElem where
  name : String
  others : List (String × String)
deriving Repr, DecidableEq

/-- The parsed `.xsd` document.  Lists keep document order; nodes the code
never touches are carried opaquely in `otherNodes`. -/
structure XsdDoc where
  rootVersion : Option String
  rootWrittenBy : Option String
  rootOthers : List (String × String)
  atomElems : List Atom3dElem
  spaceGroups : List SpaceGroupElem
  symSystems : List SymSysElem
  otherNodes : List String
deriving Repr, DecidableEq

/-! ## Association-list dictionaries (Python `dict` keyed by species) -/

/-- Python `d[k]` as an option. -/
def alookup {α : Type} (k : String) : List (String × α) → Option α
  | [] => none
  | (k', v) :: rest => if k' = k then some v else alookup k rest

/-- `d.setdefault(k, [v])` / `d[k].append(v)`: append `v` to the list at
`k`, creating the entry when absent. -/
def dictAppend {α : Type} (d : List (String × List α)) (k : String) (v : α) :
    List (String × List α) :=
  match d with
  | [] => [(k, [v])]
  | (k', vs) :: rest =>
    if k' = k then (k', vs ++ [v]) :: rest else (k', vs) :: dictAppend rest k v

/-- `d.setdefault(k, 1)` / `d[k] += 1`. -/
def bumpCount (d : List (String × ℕ)) (k : String) : List (String × ℕ) :=
  match d with
  | [] => [(k, 1)]
  | (k', n) :: rest =>
    if k' = k then (k', n + 1) :: rest else (k', n) :: bumpCount rest k

/-! ## `XsdFile.get_atom_info` (the species grouper) -/

/-- The freeze-flag triple derived from the presence of the
`RestrictedProperties` attribute (`matstudio.py` lines 132-136). -/
def tfOf (e : Atom3dElem) : List String :=
  if e.restricted.isSome then ["F", "F", "F"] else ["T", "T", "T"]

/-- The display name derived from the `Name` attribute: the attribute's
value when present and non-empty (Python truthiness), otherwise the
synthesized `<species>_custom` (`matstudio.py` lines 143-148). -/
def loadedName (e : Atom3dElem) : String :=
  match e.name with
  | some n => if n = "" then e.components ++ "_custom" else n
  | none => e.components ++ "_custom"

/-- Accumulator of the single pass over `Atom3d` elements in
`get_atom_info`: the species list and the four per-species dictionaries. -/
structure AtomAcc where
  atoms : List String
  natoms : List (String × ℕ)
  atomco : List (String × List (List ℚ))
  tfd : List (String × List (List String))
  named : List (String × List String)
deriving Repr, DecidableEq

/-- One loop iteration of `get_atom_info` (`matstudio.py` lines 113-152):
elements without an `XYZ` attribute are skipped entirely; otherwise the
species is registered (appending it to `atoms` on first occurrence) and the
coordinate, freeze-flag triple and display name are appended to the
per-species dictionaries. -/
def procElem (acc : AtomAcc) (e : Atom3dElem) : AtomAcc :=
  match e.xyz with
  | none => acc
  | some coord =>
    let atom := e.components
    { atoms := if (alookup atom acc.natoms).isSome then acc.atoms
               else acc.atoms ++ [atom]
      natoms := bumpCount acc.natoms atom
      atomco := dictAppend acc.atomco atom coord
      tfd := dictAppend acc.tfd atom (tfOf e)
      named := dictAppend acc.named atom (loadedName e) }

/-- The pass of `get_atom_info` over all `Atom3d` elements. -/
def get_atom_info (elems : List Atom3dElem) : AtomAcc :=
  elems.foldl procElem ⟨[], [], [], [], []⟩

/-! ## `XsdFile.get_bases` -/

/-- `get_bases` (`matstudio.py` lines 85-100): the three axis vectors of
the first `SpaceGroup` element, in order `AVector`, `BVector`, `CVector`;
an empty list when the document has no `SpaceGroup` element. -/
def get_bases (doc : XsdDoc) : List (List ℚ) :=
  match doc.spaceGroups.head? with
  | some sg => [sg.avec, sg.bvec, sg.cvec]
  | none => []

/-! ## `XsdFile.get_name_info` (the metadata decoder) -/

/-- The scalar fields filled in by `get_name_info`.  A `none` field models
a Python attribute that was never assigned.  `warned` records that the
fallback branch ran (the code logs a warning there). -/
structure NameData where
  energy : Option ℚ
  force : Option ℚ
  magnetism : Option ℚ
  path : Option String
  warned : Bool
deriving Repr, DecidableEq

/-- The value extracted from one metadata token:
`value.split(':')[-1].strip()` (`matstudio.py` lines 194-196). -/
def tokenTail (value : String) : String :=
  pyStrip (String.mk ((splitOnChar ':' value.toList).getLastD []))

/-- `setattr(self, key, data)` for the numeric fields. -/
def setNameField (d : NameData) (key : String) (v : ℚ) : NameData :=
  if key = "energy" then { d with energy := some v }
  else if key = "force" then { d with force := some v }
  else if key = "magnetism" then { d with magnetism := some v }
  else d

/-- The `for key, value in zip(fieldnames, info.split())` loop of
`get_name_info` with its surrounding `try`/`except`: tokens are consumed
positionally; the first `float` failure aborts the loop, overwrites all
three numeric fields with `0.0` and logs a warning (`matstudio.py`
lines 190-203). -/
def decodeLoop : List (String × String) → NameData → NameData
  | [], d => d
  | (key, value) :: rest, d =>
    if key = "path" then
      decodeLoop rest { d with path := some (tokenTail value) }
    else
      match parseFloat? (tokenTail value) with
      | some v => decodeLoop rest (setNameField d key v)
      | none =>
        { d with energy := some 0, force := some 0, magnetism := some 0,
                 warned := true }

/-- `get_name_info` acting on the metadata string `info` of the first
`SymmetrySystem` element; the `finally` clause always overwrites `path`
with the current working directory (`matstudio.py` lines 180-207). -/
def get_name_info (info : String) (cwd : String) : NameData :=
  let d := decodeLoop
    (List.zip ["energy", "force", "magnetism", "path"] (pySplit info))
    ⟨none, none, none, none, false⟩
  { d with path := some cwd }

/-! ## The in-memory state and `XsdFile.load` -/

/-- The attributes `load` leaves on an `XsdFile` object
(`matstudio.py` lines 58-83 and 154-176). -/
structure XsdState where
  ms_version : Option String
  ntot : ℕ
  atoms : List String
  atoms_num : List ℕ
  natoms : List (String × ℕ)
  tf : List (List String)
  tf_dict : List (String × List (List String))
  atom_names : List String
  atom_names_dict : List (String × List String)
  data : List (List ℚ)
  atomco_dict : List (String × List (List ℚ))
  bases : List (List ℚ)
  bases_const : ℚ
  energy : Option ℚ
  force : Option ℚ
  magnetism : Option ℚ
  path : Option String
deriving Repr, DecidableEq

/-- Assembly of the state from the grouping accumulator, the bases and the
decoded metadata: the flattened arrays concatenate the per-species
dictionary entries in species order, and `ntot` is the length of the
flattened name list (`matstudio.py` lines 154-176). -/
def mkState (doc : XsdDoc) (acc : AtomAcc) (nd : NameData) : XsdState :=
  { ms_version := match doc.rootVersion with
      | some v => if v = "" then none else some v
      | none => none
    ntot := (acc.atoms.flatMap (fun a => (alookup a acc.named).getD [])).length
    atoms := acc.atoms
    atoms_num := acc.atoms.map (fun a => (alookup a acc.natoms).getD 0)
    natoms := acc.atoms.zip (acc.atoms.map (fun a => (alookup a acc.natoms).getD 0))
    tf := acc.atoms.flatMap (fun a => (alookup a acc.tfd).getD [])
    tf_dict := acc.tfd
    atom_names := acc.atoms.flatMap (fun a => (alookup a acc.named).getD [])
    atom_names_dict := acc.named
    data := acc.atoms.flatMap (fun a => (alookup a acc.atomco).getD [])
    atomco_dict := acc.atomco
    bases := get_bases doc
    bases_const := 1
    energy := nd.energy
    force := nd.force
    magnetism := nd.magnetism
    path := nd.path }

/-- `load` (`matstudio.py` lines 58-83): record the version attribute
(Python truthiness: an empty string is not recorded), force the root's
`WrittenBy` attribute to `VASPy`, run the grouping pass, read the bases and
decode the metadata of the first `SymmetrySystem` element.  When the
document has no `SymmetrySystem` element, the loop in `get_name_info`
leaves `info` unbound and the method dies with a `NameError`. -/
def load (doc : XsdDoc) (cwd : String) : Except String (XsdState × XsdDoc) :=
  let doc' := { doc with rootWrittenBy := some "VASPy" }
  match doc'.symSystems.head? with
  | none => .error "NameError: name 'info' is not defined"
  | some sym =>
    .ok (mkState doc' (get_atom_info doc'.atomElems) (get_name_info sym.name cwd),
         doc')

/-! ## `XsdFile.update` and its parts -/

/-- The attribute writes performed on one matched `Atom3d` element inside
the `update_atoms` walk (`matstudio.py` lines 243-258): set `XYZ`, then
apply the freeze-flag toggle on `RestrictedProperties` (`F,F,F` ensures the
attribute via `setdefault`, `T,T,T` pops it, anything else leaves it), then
set `Name`. -/
def writeAtomAttrs (xyz : List ℚ) (tf : List String) (nm : String)
    (e : Atom3dElem) : Atom3dElem :=
  let e1 := { e with xyz := some xyz }
  let tfs := String.intercalate "," tf
  let e2 :=
    if tfs = "F,F,F" then
      if e1.restricted.isSome then e1 else { e1 with restricted := some "FractionalXYZ" }
    else if tfs = "T,T,T" then { e1 with restricted := none }
    else e1
  { e2 with name := some nm }

/-- The inner walk of `update_atoms` for one species (`matstudio.py`
lines 240-259): scan all `Atom3d` elements; each element carrying `XYZ`
with matching `Components` receives the `idx`-th entry of each per-species
dictionary and `idx` advances.  A missing dictionary key or an exhausted
list raises in Python (`KeyError`/`IndexError`); the document is not
returned in that case. -/
def update_atoms_walk (atomco : List (String × List (List ℚ)))
    (tfd : List (String × List (List String)))
    (named : List (String × List String))
    (atom : String) (idx : ℕ) :
    List Atom3dElem → Except String (List Atom3dElem)
  | [] => .ok []
  | e :: rest =>
    if e.xyz.isSome ∧ e.components = atom then
      match (alookup atom atomco).bind (fun l => l.get? idx),
            (alookup atom tfd).bind (fun l => l.get? idx),
            (alookup atom named).bind (fun l => l.get? idx) with
      | some c, some t, some n =>
        (update_atoms_walk atomco tfd named atom (idx + 1) rest).map
          (fun es => writeAtomAttrs c t n e :: es)
      | _, _, _ => .error "KeyError/IndexError in update_atoms"
    else
      (update_atoms_walk atomco tfd named atom idx rest).map (fun es => e :: es)

/-- The outer loop of `update_atoms` over the species list
(`matstudio.py` line 239). -/
def update_atoms_loop (atomco : List (String × List (List ℚ)))
    (tfd : List (String × List (List String)))
    (named : List (String × List String)) :
    List String → List Atom3dElem → Except String (List Atom3dElem)
  | [], es => .ok es
  | a :: rest, es =>
    match update_atoms_walk atomco tfd named a 0 es with
    | .ok es' => update_atoms_loop atomco tfd named rest es'
    | .error m => .error m

/-- `update_atoms` (`matstudio.py` lines 234-261). -/
def update_atoms (s : XsdState) (doc : XsdDoc) : Except String XsdDoc :=
  (update_atoms_loop s.atomco_dict s.tf_dict s.atom_names_dict s.atoms
    doc.atomElems).map (fun es => { doc with atomElems := es })

/-- `update_bases` (`matstudio.py` lines 283-297): rewrite the three
axis-vector attributes of the first `SpaceGroup` element from `self.bases`;
with no `SpaceGroup` element the loop body never runs.  Fewer than three
rows in `bases` raises an `IndexError` inside the loop. -/
def update_bases_core (bases : List (List ℚ)) (doc : XsdDoc) :
    Except String XsdDoc :=
  match doc.spaceGroups with
  | [] => .ok doc
  | sg :: rest =>
    match bases with
    | a :: b :: c :: _ =>
      .ok { doc with spaceGroups := { sg with avec := a, bvec := b, cvec := c } :: rest }
    | _ => .error "IndexError in update_bases"

/-- `update_bases` reading the state's `bases` attribute. -/
def update_bases (s : XsdState) (doc : XsdDoc) : Except String XsdDoc :=
  update_bases_core s.bases doc

/-- The metadata value written by `update_name`:
`"E:<energy> F:<force> M:<magnetism> P:<cwd>"` (`matstudio.py`
lines 267-275). -/
def encodeNameStr (e f m : ℚ) (cwd : String) : String :=
  "E:" ++ toString e ++ " F:" ++ toString f ++ " M:" ++ toString m ++
    " P:" ++ cwd

/-- `update_name` (`matstudio.py` lines 263-281): `getattr` on an unset
numeric field raises `AttributeError` while the value is being built; then
the `Name` attribute of the first `SymmetrySystem` element is overwritten
(no element: the loop body never runs). -/
def update_name_core (energy force magnetism : Option ℚ) (cwd : String)
    (doc : XsdDoc) : Except String XsdDoc :=
  match energy, force, magnetism with
  | some e, some f, some m =>
    .ok (match doc.symSystems with
      | [] => doc
      | sy :: rest =>
        { doc with symSystems := { sy with name := encodeNameStr e f m cwd } :: rest })
  | _, _, _ => .error "AttributeError in update_name"

/-- `update_name` reading the state's scalar attributes. -/
def update_name (s : XsdState) (cwd : String) (doc : XsdDoc) :
    Except String XsdDoc :=
  update_name_core s.energy s.force s.magnetism cwd doc

/-- `update` (`matstudio.py` lines 209-232): the three shape checks run
first, before any document element is touched; only then are the atom
attributes, the bases and the metadata written back. -/
def update (s : XsdState) (cwd : String) (doc : XsdDoc) :
    Except String XsdDoc :=
  if s.ntot ≠ s.data.length then
    .error "UnmatchedDataShape: length of data is not equal to atom number."
  else if s.ntot ≠ s.tf.length then
    .error "UnmatchedDataShape: length of tf is not equal to atom number."
  else if s.ntot ≠ s.atom_names.length then
    .error "UnmatchedDataShape: length of atom names is not equal to atom number."
  else
    match update_atoms s doc with
    | .error m => .error m
    | .ok d1 =>
      match update_bases s d1 with
      | .error m => .error m
      | .ok d2 => update_name s cwd d2

/-! ## `XsdFile.modify_color` -/

/-- Python list indexing with negative-index wrap-around, as hit by
`atoms_num_sum[atom_idx-1]` when `atom_idx = 0` (`matstudio.py` line 321):
index `-1` denotes the last element. -/
def pyIdxPred (l : List ℤ) (idx : ℕ) : Option ℤ :=
  if idx = 0 then l.getLast? else l.get? (idx - 1)

/-- The color attribute value `'%d,%d,%d, 255' % color` — note the space
before `255` in the source format string (`matstudio.py` line 324). -/
def colorAttr (color : ℤ × ℤ × ℤ) : String :=
  toString color.1 ++ "," ++ toString color.2.1 ++ "," ++ toString color.2.2 ++
    ", 255"

/-- The tag walk of `modify_color` (`matstudio.py` lines 325-336): count
matching atom elements and overwrite (`set`/`setdefault`, same result) the
`Color` attribute of the one whose 1-based count equals `target`, then
stop. -/
def colorWalk (atom_type : String) (target : ℤ) (attr : String) (i : ℤ) :
    List Atom3dElem → List Atom3dElem
  | [] => []
  | e :: rest =>
    if e.xyz.isSome ∧ e.components = atom_type then
      if i + 1 = target then { e with color := some attr } :: rest
      else e :: colorWalk atom_type target attr (i + 1) rest
    else e :: colorWalk atom_type target attr i rest

/-- `modify_color` (`matstudio.py` lines 299-337): cumulative species
counts locate the species bucket of the (1-based) `atom_number`; the
within-species rank is `atom_number - atoms_num_sum[atom_idx-1]` — for the
first bucket Python's `-1` indexing subtracts the grand total.  If no
bucket reaches `atom_number`, `atom_idx` is unbound and Python raises
`NameError`. -/
def modify_color (s : XsdState) (atom_number : ℤ) (color : ℤ × ℤ × ℤ)
    (doc : XsdDoc) : Except String XsdDoc :=
  let sums : List ℤ :=
    (List.range s.atoms.length).map
      (fun i => (((s.atoms_num.take (i + 1)).sum : ℕ) : ℤ))
  match sums.findIdx? (fun n => atom_number ≤ n) with
  | none => .error "NameError: name 'atom_idx' is not defined"
  | some atom_idx =>
    match s.atoms.get? atom_idx, pyIdxPred sums atom_idx with
    | some atom_type, some prev =>
      let type_atom_number := atom_number - prev
      .ok { doc with
        atomElems := colorWalk atom_type type_atom_number (colorAttr color) 0
          doc.atomElems }
    | _, _ => .error "IndexError in modify_color"

/-! ## `ArcFile` (the trajectory reader) -/

/-- Modelled from the spec: `str2list` from `vaspy.functions` (a module
outside the embedded file) is the "generic whitespace/quote-aware line
tokenizer"; on the trajectory lines handled here it splits a line into its
whitespace-separated tokens. -/
def str2list (line : String) : List String := pySplit line

/-- The coordinates parsed from one data line of a trajectory block:
`[float(c) for c in str2list(line)[1:4]]` (`matstudio.py` lines 391-392);
`none` models the `ValueError` of a failing `float`. -/
def parseCoordLine (line : String) : Option (List ℚ) :=
  (((str2list line).drop 1).take 3).mapM parseFloat?

/-- The loop state of `coords_iterator`. -/
structure ArcState where
  collecting : Bool
  coords : List (List ℚ)
  frames : List (List (List ℚ))
deriving Repr, DecidableEq

/-- One line of `ArcFile.coords_iterator` (`matstudio.py` lines 378-393):
a stripped line starting with `"PBC "` (the trailing space distinguishes it
from `"PBC="`) opens a block when not collecting; a line starting with
`"end"` closes the block and yields the frame; any other line inside a
block is a data line. -/
def arcLine (st : ArcState) (line0 : String) : Except String ArcState :=
  let line := pyStrip line0
  if st.collecting = false ∧ pyStartsWith line "PBC " then
    .ok { st with collecting := true }
  else if st.collecting ∧ pyStartsWith line "end" then
    .ok { collecting := false, coords := [], frames := st.frames ++ [st.coords] }
  else if st.collecting then
    match parseCoordLine line with
    | some c => .ok { st with coords := st.coords ++ [c] }
    | none => .error "ValueError in coords_iterator"
  else .ok st

/-- Run of the generator over the file's lines, returning the sequence of
yielded frames (a trailing unterminated block yields nothing, as the
generator only yields on an `end` line). -/
def arcRun (st : ArcState) : List String → Except String (List (List (List ℚ)))
  | [] => .ok st.frames
  | l :: rest =>
    match arcLine st l with
    | .ok st' => arcRun st' rest
    | .error m => .error m

/-- `ArcFile.coords_iterator` (`matstudio.py` lines 372-393) on the list of
lines of the trajectory file. -/
def coords_iterator (lines : List String) :
    Except String (List (List (List ℚ))) :=
  arcRun ⟨false, [], []⟩ lines

/-! ## `XtdFile` (the fractional trajectory adapter) -/

/-- Cofactor inverse applied to a row vector; this stands for the external
collaborator `AtomCo.cart2dir`.  Modelled from the spec: "the
Cartesian→fractional conversion using the current basis (provided by the
external coordinate-container collaborator)"; the class `AtomCo` is not
part of the embedded file. -/
def cart2dirRow (bases : List (List ℚ)) (row : List ℚ) : List ℚ :=
  let g := fun (i j : ℕ) => ((bases.getD i []).getD j 0)
  let det := g 0 0 * (g 1 1 * g 2 2 - g 1 2 * g 2 1)
    - g 0 1 * (g 1 0 * g 2 2 - g 1 2 * g 2 0)
    + g 0 2 * (g 1 0 * g 2 1 - g 1 1 * g 2 0)
  let r := fun (j : ℕ) => row.getD j 0
  if det = 0 then [0, 0, 0]
  else
    [ (r 0 * (g 1 1 * g 2 2 - g 1 2 * g 2 1)
        + r 1 * (g 2 1 * g 0 2 - g 2 2 * g 0 1)
        + r 2 * (g 0 1 * g 1 2 - g 0 2 * g 1 1)) / det,
      (r 0 * (g 1 2 * g 2 0 - g 1 0 * g 2 2)
        + r 1 * (g 2 2 * g 0 0 - g 2 0 * g 0 2)
        + r 2 * (g 0 2 * g 1 0 - g 0 0 * g 1 2)) / det,
      (r 0 * (g 1 0 * g 2 1 - g 1 1 * g 2 0)
        + r 1 * (g 2 0 * g 0 1 - g 2 1 * g 0 0)
        + r 2 * (g 0 0 * g 1 1 - g 0 1 * g 1 0)) / det ]

/-- Modelled from the spec: per-frame Cartesian→fractional conversion. -/
def cart2dir (bases : List (List ℚ)) (cart : List (List ℚ)) : List (List ℚ) :=
  cart.map (cart2dirRow bases)

/-- `XtdFile.coords_iterator` (`matstudio.py` lines 472-483): with no
`ArcFile` configured (`arcname=None` at construction), iterating raises
`ValueError`; otherwise each Cartesian frame of the arc file is converted
to direct coordinates with the loaded bases. -/
def xtd_coords_iterator (arcfile : Option (List String))
    (bases : List (List ℚ)) : Except String (List (List (List ℚ))) :=
  match arcfile with
  | none => .error "ValueError: No ArcFile object in XtdFile."
  | some lines =>
    match coords_iterator lines with
    | .ok frames => .ok (frames.map (cart2dir bases))
    | .error m => .error m

/-! ## Projections of the element list (specification-side views used in
the theorems; each is the obvious read-off of the corresponding loop of
`get_atom_info`) -/

/-- The species of the structure's atoms (elements carrying `XYZ`) in
document order. -/
def speciesSeq (l : List Atom3dElem) : List String :=
  l.filterMap (fun e => if e.xyz.isSome then some e.components else none)

/-- Deduplication keeping first occurrences, with accumulator (mirrors the
`atoms.append` discipline of `get_atom_info`). -/
def firstOccA (seen : List String) : List String → List String
  | [] => seen
  | a :: rest =>
    if a ∈ seen then firstOccA seen rest else firstOccA (seen ++ [a]) rest

/-- Deduplication keeping first occurrences. -/
def firstOcc (l : List String) : List String := firstOccA [] l

/-- Coordinates of the structure's atoms of species `a`, in document
order. -/
def coordsOf (a : String) (l : List Atom3dElem) : List (List ℚ) :=
  l.filterMap (fun e => if e.components = a then e.xyz else none)

/-- Freeze-flag triples of the structure's atoms of species `a`. -/
def tfsOf (a : String) (l : List Atom3dElem) : List (List String) :=
  l.filterMap
    (fun e => if e.components = a ∧ e.xyz.isSome then some (tfOf e) else none)

/-- Display names of the structure's atoms of species `a`. -/
def namesOf (a : String) (l : List Atom3dElem) : List String :=
  l.filterMap
    (fun e => if e.components = a ∧ e.xyz.isSome then some (loadedName e) else none)

/-- `some l` for a non-empty list, `none` for `[]` (the shape of every
entry an `alookup` can produce from the grouping dictionaries). -/
def listOpt {α : Type} (l : List α) : Option (List α) :=
  if l.isEmpty then none else some l

/-- `some n` for positive `n`, `none` for `0`. -/
def natOpt (n : ℕ) : Option ℕ :=
  if n = 0 then none else some n

/-- The effect of a no-mutation `update_atoms` on one element: an element
carrying `XYZ` gets its `Name` attribute set to its loaded display name
(all its other written attributes are rewritten to their current values);
an element without `XYZ` is untouched. -/
def reloadNameFn (e : Atom3dElem) : Atom3dElem :=
  if e.xyz.isSome then { e with name := some (loadedName e) } else e

/-- Intermediate view of the species-by-species walk: only elements whose
species is in `S` have been rewritten so far. -/
def rewriteForSet (S : List String) (e : Atom3dElem) : Atom3dElem :=
  if e.xyz.isSome ∧ e.components ∈ S then { e with name := some (loadedName e) }
  else e

/-- Overwriting the `Name` attribute of the first `SymmetrySystem`
element. -/
def setHeadSymName (v : String) : List SymSysElem → List SymSysElem
  | [] => []
  | sy :: rest => { sy with name := v } :: rest

/-- `true` when one of the metadata tokens zipped against the three
numeric field names fails Python `float` — exactly the condition under
which `get_name_info`'s `except` branch runs. -/
def numTokenFails (info : String) : Bool :=
  ((pySplit info).take 3).any (fun t => (parseFloat? (tokenTail t)).isNone)

/-! ## Concrete data used by witnesses and counterexamples -/

/-- Species `A`, atom 1: plain free atom with a `Name`. -/
def eA1 : Atom3dElem := ⟨"A", some [0, 0, 0], none, some "A1", none, []⟩

/-- Species `A`, atom 2: frozen (`RestrictedProperties` present), no
`Name` attribute. -/
def eA2 : Atom3dElem :=
  ⟨"A", some [1/2, 0, 0], some "FractionalXYZ", none, none, []⟩

/-- Species `B`, atom 1. -/
def eB1 : Atom3dElem := ⟨"B", some [0, 1/2, 0], none, some "B1", none, []⟩

/-- Species `B`, atom 2: empty `Name` attribute (Python-falsy). -/
def eB2 : Atom3dElem := ⟨"B", some [0, 0, 1/2], none, some "", none, []⟩

/-- Species `B`, atom 3. -/
def eB3 : Atom3dElem :=
  ⟨"B", some [1/4, 1/4, 1/4], none, some "B3", none, []⟩

/-- An `Atom3d` element with no `XYZ` attribute: skipped by the grouping
pass. -/
def eSkip : Atom3dElem := ⟨"C", none, none, some "ghost", none, [("k", "v")]⟩

/-- A well-formed document with per-species atom counts `[2, 3]` (species
`A` then `B`), one skipped element, a lattice and parseable metadata. -/
def doc0 : XsdDoc :=
  { rootVersion := some "7.0"
    rootWrittenBy := some "Materials Studio"
    rootOthers := [("ID", "1")]
    atomElems := [eA1, eA2, eSkip, eB1, eB2, eB3]
    spaceGroups := [⟨[10, 0, 0], [0, 10, 0], [0, 0, 10], [("Name", "P1")]⟩]
    symSystems := [⟨"E:-1.5 F:0.5 M:2.0 P:/old", [("Mapping", "2")]⟩]
    otherNodes := ["bond1"] }

/-- `doc0` as it stands in memory right after `load` (root `WrittenBy`
forced to `VASPy`). -/
def doc0w : XsdDoc := { doc0 with rootWrittenBy := some "VASPy" }

/-- The state `load doc0 "/w"` produces. -/
def st0 : XsdState :=
  mkState doc0w (get_atom_info doc0w.atomElems)
    (get_name_info "E:-1.5 F:0.5 M:2.0 P:/old" "/w")

/-- A document whose metadata string parses into no numeric field at all. -/
def docGarbage : XsdDoc :=
  { doc0 with symSystems := [⟨"relaxed_surface_run", []⟩] }

/-- `docGarbage` right after `load`. -/
def docGarbagew : XsdDoc := { docGarbage with rootWrittenBy := some "VASPy" }

/-- The state `load docGarbage "/w"` produces (fallback metadata: all three
numeric fields `0`). -/
def stGarbage : XsdState :=
  mkState docGarbagew (get_atom_info docGarbagew.atomElems)
    (get_name_info "relaxed_surface_run" "/w")
theorem alookup_dictAppend_same {α : Type} (d : List (String × List α))
    (k : String) (v : α) :
    alookup k (dictAppend d k v) = some ((alookup k d).getD [] ++ [v]) := by
  induction d with
  | nil => simp [alookup, dictAppend]
  | cons hd tl ih =>
    obtain ⟨k', vs⟩ := hd
    by_cases h : k' = k
    · subst h; simp [alookup, dictAppend]
    · simp [alookup, dictAppend, h, ih]

theorem alookup_dictAppend_other {α : Type} (d : List (String × List α))
    (k k' : String) (v : α) (h : k' ≠ k) :
    alookup k' (dictAppend d k v) = alookup k' d := by
  induction d with
  | nil => simp [alookup, dictAppend, Ne.symm h]
  | cons hd tl ih =>
    obtain ⟨k'', vs⟩ := hd
    by_cases h2 : k'' = k
    · subst h2
      have : k'' ≠ k' := fun hc => h (hc ▸ rfl)
      simp [alookup, dictAppend, this]
    · by_cases h3 : k'' = k'
      · subst h3; simp [alookup, dictAppend, h2]
      · simp [alookup, dictAppend, h2, h3, ih]

theorem alookup_bumpCount_same (d : List (String × ℕ)) (k : String) :
    alookup k (bumpCount d k) = some ((alookup k d).getD 0 + 1) := by
  induction d with
  | nil => simp [alookup, bumpCount]
  | cons hd tl ih =>
    obtain ⟨k', n⟩ := hd
    by_cases h : k' = k
    · subst h; simp [alookup, bumpCount]
    · simp [alookup, bumpCount, h, ih]

theorem alookup_bumpCount_other (d : List (String × ℕ)) (k k' : String)
    (h : k' ≠ k) : alookup k' (bumpCount d k) = alookup k' d := by
  induction d with
  | nil => simp [alookup, bumpCount, Ne.symm h]
  | cons hd tl ih =>
    obtain ⟨k'', n⟩ := hd
    by_cases h2 : k'' = k
    · subst h2
      have : k'' ≠ k' := fun hc => h (hc ▸ rfl)
      simp [alookup, bumpCount, this]
    · by_cases h3 : k'' = k'
      · subst h3; simp [alookup, bumpCount, h2]
      · simp [alookup, bumpCount, h2, h3, ih]


/-! ## Claim C2: shape mismatch -/

/-- Claim C2 (confirmed): whenever `ntot` differs from the length of the
coordinate array, of the freeze-flag array, or of the display-name array,
`update` fails with the shape-mismatch error (`UnmatchedDataShape`) and
returns no document: the three checks run before `update_atoms`,
`update_bases` or `update_name` touch any element, so nothing is
mutated on this path. -/
theorem update_shape_mismatch_error (s : XsdState) (cwd : String)
    (doc : XsdDoc)
    (h : s.ntot ≠ s.data.length ∨ s.ntot ≠ s.tf.length ∨
      s.ntot ≠ s.atom_names.length) :
    ∃ msg, update s cwd doc = .error msg := by
  unfold update
  split_ifs with h1 h2 h3
  · exact ⟨_, rfl⟩
  · exact ⟨_, rfl⟩
  · exact ⟨_, rfl⟩
  · rcases h with h | h | h <;> simp_all

/-- Witness for C2: truncating the coordinate array of a loaded state by
one row makes `update` fail. -/
theorem update_shape_mismatch_error_witness :
    ∃ msg,
      update { st0 with data := st0.data.drop 1 } "/w" doc0w = .error msg :=
  update_shape_mismatch_error { st0 with data := st0.data.drop 1 } "/w" doc0w
    (Or.inl (by decide))

/-! ## Claim C9: iteration without a trajectory source -/

/-- Claim C9 (confirmed): for an `XtdFile` constructed without an arc
source (`arcname=None`, so `self.arcfile is None`), iterating the
fractional-coordinate generator raises `ValueError` instead of yielding an
empty sequence. -/
theorem xtd_coords_iterator_no_arcfile (bases : List (List ℚ)) :
    xtd_coords_iterator none bases =
      .error "ValueError: No ArcFile object in XtdFile." := rfl

/-! ## Claim C6: the freeze-flag toggle -/

/-- Claim C6 (confirmed): on any atom element, the attribute write-back
performed by `update_atoms` (`writeAtomAttrs`, applied to each matched
element) treats the restriction marker as a toggle: writing `F,F,F` and
then `T,T,T` leaves no `RestrictedProperties` attribute; writing `F,F,F`
twice leaves the marker exactly as after the first write — present, with
a single value (the attribute map cannot hold duplicates), not added
again. -/
theorem update_atoms_tf_toggle (e : Atom3dElem) (c1 c2 : List ℚ)
    (n1 n2 : String) :
    (writeAtomAttrs c2 ["T", "T", "T"] n2
      (writeAtomAttrs c1 ["F", "F", "F"] n1 e)).restricted = none ∧
    (writeAtomAttrs c2 ["F", "F", "F"] n2
      (writeAtomAttrs c1 ["F", "F", "F"] n1 e)).restricted
      = (writeAtomAttrs c1 ["F", "F", "F"] n1 e).restricted ∧
    ((writeAtomAttrs c1 ["F", "F", "F"] n1 e).restricted).isSome = true := by
  have hF : String.intercalate "," ["F", "F", "F"] = "F,F,F" := rfl
  have hT : String.intercalate "," ["T", "T", "T"] = "T,T,T" := rfl
  have hne : ("T,T,T" : String) ≠ "F,F,F" := by decide
  cases h : e.restricted <;>
    simp [writeAtomAttrs, hF, hT, hne, h]

/-! ## Claim C4: the metadata fallback -/

/-- Counterexample to C4 as stated: the empty metadata string contains no
recognizable `Key:value` token, yet decoding it leaves `energy` (and
`force`, `magnetism`) unset rather than `0.0`, and logs no warning: with
no tokens the `for` loop never runs, so no exception triggers the fallback
branch. -/
theorem get_name_info_empty_counterexample :
    (get_name_info "" "/w").energy ≠ some 0 ∧
    (get_name_info "" "/w").warned = false := by decide

/-- Claim C4 (corrected): for every metadata string in which one of the
whitespace tokens zipped against the numeric fields fails Python `float`
(in particular any non-empty token list with no recognizable numeric
`Key:value` form), decoding never raises: it sets energy, force and
magnetism all to `0.0`, takes the warning branch, and still sets `path`
to the current working directory.  (A token list that is shorter than the
field list but fully parseable — including the empty string — instead
assigns only the parsed prefix, leaves the remaining numeric fields unset
and logs no warning; `path` is set to the working directory in every
case by the `finally` clause.) -/
theorem get_name_info_fallback (info cwd : String)
    (h : numTokenFails info = true) :
    (get_name_info info cwd).energy = some 0 ∧
    (get_name_info info cwd).force = some 0 ∧
    (get_name_info info cwd).magnetism = some 0 ∧
    (get_name_info info cwd).warned = true ∧
    (get_name_info info cwd).path = some cwd := by
  unfold get_name_info numTokenFails at *
  rcases hts : pySplit info with _ | ⟨t0, _ | ⟨t1, _ | ⟨t2, rest⟩⟩⟩ <;>
    rw [hts] at h
  · simp at h
  · simp only [List.take, List.any_cons, List.any_nil, Bool.or_false,
      Option.isNone_iff_eq_none] at h
    simp [decodeLoop, h]
  · simp only [List.take, List.any_cons, List.any_nil, Bool.or_false,
      Bool.or_eq_true, Option.isNone_iff_eq_none] at h
    rcases hp0 : parseFloat? (tokenTail t0) with _ | v0
    · simp [decodeLoop, hp0]
    · rw [hp0] at h
      simp only [Option.some_ne_none, false_or] at h
      simp [decodeLoop, hp0, h, setNameField]
  · simp only [List.take, List.any_cons, List.any_nil, Bool.or_false,
      Bool.or_eq_true, Option.isNone_iff_eq_none] at h
    rcases hp0 : parseFloat? (tokenTail t0) with _ | v0
    · simp [decodeLoop, hp0]
    · rw [hp0] at h
      simp only [Option.some_ne_none, false_or] at h
      rcases hp1 : parseFloat? (tokenTail t1) with _ | v1
      · simp [decodeLoop, hp0, hp1, setNameField]
      · rw [hp1] at h
        simp only [Option.some_ne_none, false_or] at h
        simp [decodeLoop, hp0, hp1, h, setNameField]

/-- Witness for C4: a metadata string whose single token is not a number
takes the fallback: all three numeric fields `0`, warning logged, `path`
set to the working directory. -/
theorem get_name_info_fallback_witness :
    (get_name_info "relaxed_surface_run" "/w").energy = some 0 ∧
    (get_name_info "relaxed_surface_run" "/w").force = some 0 ∧
    (get_name_info "relaxed_surface_run" "/w").magnetism = some 0 ∧
    (get_name_info "relaxed_surface_run" "/w").warned = true ∧
    (get_name_info "relaxed_surface_run" "/w").path = some "/w" :=
  get_name_info_fallback "relaxed_surface_run" "/w" (by decide)

/-! ## Claim C5: key table vs. positional assignment -/

/-- Counterexample to C5 as stated: on `"F:1 E:2 M:3 P:/p"` a key-table
decoder would set `energy` from the `E` token (to `2`); the code zips
tokens with fields positionally and ignores the keys, so the first token
(`F:1`) lands in `energy` and the second (`E:2`) in `force`. -/
theorem get_name_info_keytable_counterexample :
    (get_name_info "F:1 E:2 M:3 P:/p" "/w").energy = some 1 ∧
    (get_name_info "F:1 E:2 M:3 P:/p" "/w").force = some 2 ∧
    (get_name_info "F:1 E:2 M:3 P:/p" "/w").energy ≠ some 2 := by decide

/-- Claim C5 (corrected): the decoder splits the metadata string on
whitespace and splits each token on `':'` keeping the last segment, but it
assigns values positionally — the i-th whitespace token feeds the i-th
field of the fixed order (energy, force, magnetism, path) via
`zip(fieldnames, info.split())`; the token's key is ignored, so token
order (not the key table) selects the field.  Characterization when no
numeric token fails to parse. -/
theorem get_name_info_positional (info cwd : String)
    (h : numTokenFails info = false) :
    (get_name_info info cwd).energy
      = ((pySplit info).get? 0).bind (fun t => parseFloat? (tokenTail t)) ∧
    (get_name_info info cwd).force
      = ((pySplit info).get? 1).bind (fun t => parseFloat? (tokenTail t)) ∧
    (get_name_info info cwd).magnetism
      = ((pySplit info).get? 2).bind (fun t => parseFloat? (tokenTail t)) ∧
    (get_name_info info cwd).path = some cwd := by
  unfold get_name_info numTokenFails at *
  rcases hts : pySplit info with _ | ⟨t0, _ | ⟨t1, _ | ⟨t2, rest⟩⟩⟩ <;>
    rw [hts] at h
  · simp [decodeLoop]
  · simp only [List.take, List.any_cons, List.any_nil, Bool.or_false] at h
    rcases hp0 : parseFloat? (tokenTail t0) with _ | v0
    · rw [hp0] at h; simp at h
    · simp [decodeLoop, hp0, setNameField]
  · simp only [List.take, List.any_cons, List.any_nil, Bool.or_false] at h
    rcases hp0 : parseFloat? (tokenTail t0) with _ | v0
    · rw [hp0] at h; simp at h
    · rcases hp1 : parseFloat? (tokenTail t1) with _ | v1
      · rw [hp0, hp1] at h; simp at h
      · simp [decodeLoop, hp0, hp1, setNameField]
  · simp only [List.take, List.any_cons, List.any_nil, Bool.or_false] at h
    rcases hp0 : parseFloat? (tokenTail t0) with _ | v0
    · rw [hp0] at h; simp at h
    · rcases hp1 : parseFloat? (tokenTail t1) with _ | v1
      · rw [hp0, hp1] at h; simp at h
      · rcases hp2 : parseFloat? (tokenTail t2) with _ | v2
        · rw [hp0, hp1, hp2] at h; simp at h
        · rcases rest with _ | ⟨t3, rest'⟩
          · simp [decodeLoop, hp0, hp1, hp2, setNameField]
          · simp [decodeLoop, hp0, hp1, hp2, setNameField]

/-- Witness for C5: the concrete decode of `"F:1 E:2 M:3 P:/p"` matches
the positional characterization. -/
theorem get_name_info_positional_witness :
    (get_name_info "F:1 E:2 M:3 P:/p" "/w").energy
      = ((pySplit "F:1 E:2 M:3 P:/p").get? 0).bind
          (fun t => parseFloat? (tokenTail t)) ∧
    (get_name_info "F:1 E:2 M:3 P:/p" "/w").force
      = ((pySplit "F:1 E:2 M:3 P:/p").get? 1).bind
          (fun t => parseFloat? (tokenTail t)) ∧
    (get_name_info "F:1 E:2 M:3 P:/p" "/w").magnetism
      = ((pySplit "F:1 E:2 M:3 P:/p").get? 2).bind
          (fun t => parseFloat? (tokenTail t)) ∧
    (get_name_info "F:1 E:2 M:3 P:/p" "/w").path = some "/w" :=
  get_name_info_positional "F:1 E:2 M:3 P:/p" "/w" (by decide)

/-! ## Claim C3: `modify_color` -/

/-- Claim C3 (code bug, evaluated): on the loaded `doc0` (per-species
counts `[2, 3]`), `modify_color` with atom index `4` does color the second
species' 2nd atom — but with the value `"255,117,51, 255"` (the source
format string contains a space before `255`), and `modify_color` with atom
index `1` colors nothing at all and returns the document unchanged: for an
index in the first bucket, `atoms_num_sum[atom_idx-1]` evaluates
`atoms_num_sum[-1]` (the grand total, here `5`), making the within-species
rank `1 - 5 = -4`, which the 1-based walk counter never reaches — contrary
to the function's own `start from 1` contract. -/
theorem modify_color_first_species_noop :
    modify_color st0 1 (255, 117, 51) doc0w = .ok doc0w ∧
    modify_color st0 4 (255, 117, 51) doc0w =
      .ok { doc0w with
        atomElems := [eA1, eA2, eSkip, eB1,
          { eB2 with color := some "255,117,51, 255" }, eB3] } := by
  constructor <;> rfl

/-! ## Claim C10: `update` reads only the dictionaries -/

/-- Claim C10 (confirmed): the attribute values `update` writes back
depend only on the per-species dictionaries, the species list, `ntot`, the
bases and the scalar fields; two states agreeing on those — whose
flattened arrays `data`, `tf`, `atom_names` differ arbitrarily but still
have length `ntot` — produce identical results.  (`update` reads the
flattened arrays only through the three length checks.) -/
theorem update_depends_only_on_dicts (s1 s2 : XsdState) (cwd : String)
    (doc : XsdDoc)
    (_hntot : s1.ntot = s2.ntot) (hatoms : s1.atoms = s2.atoms)
    (hco : s1.atomco_dict = s2.atomco_dict)
    (htf : s1.tf_dict = s2.tf_dict)
    (hnm : s1.atom_names_dict = s2.atom_names_dict)
    (hb : s1.bases = s2.bases)
    (he : s1.energy = s2.energy) (hf : s1.force = s2.force)
    (hm : s1.magnetism = s2.magnetism)
    (hd1 : s1.data.length = s1.ntot) (ht1 : s1.tf.length = s1.ntot)
    (hn1 : s1.atom_names.length = s1.ntot)
    (hd2 : s2.data.length = s2.ntot) (ht2 : s2.tf.length = s2.ntot)
    (hn2 : s2.atom_names.length = s2.ntot) :
    update s1 cwd doc = update s2 cwd doc := by
  have hA : ∀ d, update_atoms s1 d = update_atoms s2 d := by
    intro d; simp only [update_atoms, hco, htf, hnm, hatoms]
  have hB : ∀ d, update_bases s1 d = update_bases s2 d := by
    intro d; simp only [update_bases, hb]
  have hN : ∀ d, update_name s1 cwd d = update_name s2 cwd d := by
    intro d; simp only [update_name, he, hf, hm]
  simp only [update, hd1, ht1, hn1, hd2, ht2, hn2, ne_eq, not_true_eq_false,
    if_false, hA, hB, hN]

/-- Witness for C10: reversing all three flattened arrays of the loaded
state changes nothing about what `update` writes. -/
theorem update_depends_only_on_dicts_witness :
    update st0 "/w" doc0w =
      update
        { st0 with
            data := st0.data.reverse
            tf := st0.tf.reverse
            atom_names := st0.atom_names.reverse } "/w" doc0w :=
  update_depends_only_on_dicts st0
    { st0 with
        data := st0.data.reverse
        tf := st0.tf.reverse
        atom_names := st0.atom_names.reverse } "/w" doc0w
    rfl rfl rfl rfl rfl rfl rfl rfl rfl
    (by decide) (by decide) (by decide) (by decide) (by decide) (by decide)

/-! ## Lemmas about first-occurrence deduplication and the projections -/

theorem firstOccA_append_elem (l : List String) (a : String) :
    ∀ seen, firstOccA seen (l ++ [a]) =
      if a ∈ firstOccA seen l then firstOccA seen l
      else firstOccA seen l ++ [a] := by
  induction l with
  | nil => intro seen; simp [firstOccA]
  | cons b l' ih =>
    intro seen
    by_cases hb : b ∈ seen <;> simp [firstOccA, hb, ih]

theorem mem_firstOccA (l : List String) (a : String) :
    ∀ seen, a ∈ firstOccA seen l ↔ a ∈ seen ∨ a ∈ l := by
  induction l with
  | nil => intro seen; simp [firstOccA]
  | cons b l' ih =>
    intro seen
    by_cases hb : b ∈ seen
    · rw [firstOccA]
      simp only [hb, if_true, ih, List.mem_cons]
      constructor
      · rintro (h | h)
        · exact Or.inl h
        · exact Or.inr (Or.inr h)
      · rintro (h | h | h)
        · exact Or.inl h
        · exact Or.inl (h ▸ hb)
        · exact Or.inr h
    · rw [firstOccA]
      simp only [hb, if_false, ih, List.mem_append, List.mem_singleton,
        List.mem_cons]
      tauto

theorem mem_firstOcc (l : List String) (a : String) :
    a ∈ firstOcc l ↔ a ∈ l := by
  rw [firstOcc, mem_firstOccA]
  simp

/-- Generic: two `filterMap`s whose functions succeed on exactly the same
inputs produce lists of the same length. -/
theorem filterMap_length_congr {α β γ : Type}
    (f : α → Option β) (g : α → Option γ)
    (h : ∀ x, (f x).isSome = (g x).isSome) :
    ∀ l : List α, (l.filterMap f).length = (l.filterMap g).length := by
  intro l
  induction l with
  | nil => rfl
  | cons x l' ih =>
    rw [List.filterMap_cons, List.filterMap_cons]
    have hx := h x
    cases hf : f x with
    | none =>
      rw [hf] at hx
      cases hg : g x with
      | none => exact ih
      | some c => rw [hg] at hx; simp at hx
    | some b =>
      rw [hf] at hx
      cases hg : g x with
      | none => rw [hg] at hx; simp at hx
      | some c => simpa using ih

theorem coordsOf_length_eq (a : String) (l : List Atom3dElem) :
    (coordsOf a l).length = (namesOf a l).length := by
  refine filterMap_length_congr _ _ ?_ l
  intro e
  by_cases hc : e.components = a
  · cases hx : e.xyz <;> simp [hc, hx]
  · simp [hc]

theorem tfsOf_length_eq (a : String) (l : List Atom3dElem) :
    (tfsOf a l).length = (namesOf a l).length := by
  refine filterMap_length_congr _ _ ?_ l
  intro e
  by_cases hc : e.components = a
  · cases hx : e.xyz <;> simp [hc, hx]
  · simp [hc]

theorem namesOf_cons (a : String) (e : Atom3dElem) (l : List Atom3dElem) :
    namesOf a (e :: l) =
      (if e.components = a ∧ e.xyz.isSome then [loadedName e] else [])
        ++ namesOf a l := by
  rw [namesOf, List.filterMap_cons]
  by_cases hc : e.components = a ∧ e.xyz.isSome = true
  · rw [if_pos hc, if_pos]
    · rfl
    · exact hc
  · rw [if_neg hc, if_neg]
    · rfl
    · exact hc

theorem speciesSeq_cons (e : Atom3dElem) (l : List Atom3dElem) :
    speciesSeq (e :: l) =
      (if e.xyz.isSome then [e.components] else []) ++ speciesSeq l := by
  rw [speciesSeq, List.filterMap_cons]
  by_cases hx : e.xyz.isSome
  · rw [if_pos hx, if_pos hx]
    rfl
  · rw [if_neg hx, if_neg hx]
    rfl

theorem mem_speciesSeq_iff_namesOf (a : String) (l : List Atom3dElem) :
    a ∈ speciesSeq l ↔ namesOf a l ≠ [] := by
  induction l with
  | nil => simp [speciesSeq, namesOf]
  | cons e l' ih =>
    rw [speciesSeq_cons, namesOf_cons]
    by_cases hc : e.components = a ∧ e.xyz.isSome = true
    · simp [hc, hc.1, hc.2]
    · rw [if_neg hc, List.nil_append]
      by_cases hx : e.xyz.isSome
      · have hca : e.components ≠ a := fun hcc => hc ⟨hcc, hx⟩
        simp only [hx, if_true, List.cons_append, List.nil_append,
          List.mem_cons]
        rw [ih]
        constructor
        · rintro (h | h)
          · exact absurd h.symm hca
          · exact h
        · exact Or.inr
      · simp only [hx, if_false, List.nil_append]
        exact ih

theorem listOpt_getD {α : Type} (l : List α) : (listOpt l).getD [] = l := by
  cases l <;> simp [listOpt]

theorem listOpt_append {α : Type} (l : List α) (x : α) :
    listOpt (l ++ [x]) = some (l ++ [x]) := by
  cases l <;> simp [listOpt]

theorem natOpt_getD (n : ℕ) : (natOpt n).getD 0 = n := by
  cases n <;> simp [natOpt]

theorem natOpt_isSome (n : ℕ) : (natOpt n).isSome = true ↔ n ≠ 0 := by
  cases n <;> simp [natOpt]

/-! ## The grouping invariant: after `get_atom_info`, every dictionary is
exactly the per-species projection of the element list -/

theorem procElem_none (acc : AtomAcc) (e : Atom3dElem) (hx : e.xyz = none) :
    procElem acc e = acc := by
  rw [procElem, hx]

theorem coordsOf_append_one (a : String) (l : List Atom3dElem)
    (e : Atom3dElem) (v : List ℚ) (hx : e.xyz = some v) :
    coordsOf a (l ++ [e]) =
      coordsOf a l ++ (if e.components = a then [v] else []) := by
  rw [coordsOf, coordsOf, List.filterMap_append]
  by_cases hc : e.components = a
  · simp [List.filterMap_cons, hc, hx]
  · simp [List.filterMap_cons, hc]

theorem tfsOf_append_one (a : String) (l : List Atom3dElem)
    (e : Atom3dElem) (v : List ℚ) (hx : e.xyz = some v) :
    tfsOf a (l ++ [e]) =
      tfsOf a l ++ (if e.components = a then [tfOf e] else []) := by
  rw [tfsOf, tfsOf, List.filterMap_append]
  by_cases hc : e.components = a
  · simp [List.filterMap_cons, hc, hx]
  · simp [List.filterMap_cons, hc]

theorem namesOf_append_one (a : String) (l : List Atom3dElem)
    (e : Atom3dElem) (v : List ℚ) (hx : e.xyz = some v) :
    namesOf a (l ++ [e]) =
      namesOf a l ++ (if e.components = a then [loadedName e] else []) := by
  rw [namesOf, namesOf, List.filterMap_append]
  by_cases hc : e.components = a
  · simp [List.filterMap_cons, hc, hx]
  · simp [List.filterMap_cons, hc]

theorem coordsOf_append_skip (a : String) (l : List Atom3dElem)
    (e : Atom3dElem) (hx : e.xyz = none) :
    coordsOf a (l ++ [e]) = coordsOf a l := by
  rw [coordsOf, coordsOf, List.filterMap_append]
  by_cases hc : e.components = a <;>
    simp [List.filterMap_cons, hc, hx]

theorem tfsOf_append_skip (a : String) (l : List Atom3dElem)
    (e : Atom3dElem) (hx : e.xyz = none) :
    tfsOf a (l ++ [e]) = tfsOf a l := by
  rw [tfsOf, tfsOf, List.filterMap_append]
  by_cases hc : e.components = a <;>
    simp [List.filterMap_cons, hc, hx]

theorem namesOf_append_skip (a : String) (l : List Atom3dElem)
    (e : Atom3dElem) (hx : e.xyz = none) :
    namesOf a (l ++ [e]) = namesOf a l := by
  rw [namesOf, namesOf, List.filterMap_append]
  by_cases hc : e.components = a <;>
    simp [List.filterMap_cons, hc, hx]

theorem speciesSeq_append_one (l : List Atom3dElem) (e : Atom3dElem)
    (v : List ℚ) (hx : e.xyz = some v) :
    speciesSeq (l ++ [e]) = speciesSeq l ++ [e.components] := by
  rw [speciesSeq, speciesSeq, List.filterMap_append]
  simp [List.filterMap_cons, hx]

theorem speciesSeq_append_skip (l : List Atom3dElem) (e : Atom3dElem)
    (hx : e.xyz = none) : speciesSeq (l ++ [e]) = speciesSeq l := by
  rw [speciesSeq, speciesSeq, List.filterMap_append]
  simp [List.filterMap_cons, hx]

/-- One `procElem` step preserves the grouping invariant. -/
theorem procElem_step (processed : List Atom3dElem) (acc : AtomAcc)
    (e : Atom3dElem)
    (h1 : ∀ a, alookup a acc.atomco = listOpt (coordsOf a processed))
    (h2 : ∀ a, alookup a acc.tfd = listOpt (tfsOf a processed))
    (h3 : ∀ a, alookup a acc.named = listOpt (namesOf a processed))
    (h4 : ∀ a, alookup a acc.natoms = natOpt (namesOf a processed).length)
    (h5 : acc.atoms = firstOcc (speciesSeq processed)) :
    (∀ a, alookup a (procElem acc e).atomco
      = listOpt (coordsOf a (processed ++ [e]))) ∧
    (∀ a, alookup a (procElem acc e).tfd
      = listOpt (tfsOf a (processed ++ [e]))) ∧
    (∀ a, alookup a (procElem acc e).named
      = listOpt (namesOf a (processed ++ [e]))) ∧
    (∀ a, alookup a (procElem acc e).natoms
      = natOpt (namesOf a (processed ++ [e])).length) ∧
    (procElem acc e).atoms = firstOcc (speciesSeq (processed ++ [e])) := by
  cases hx : e.xyz with
  | none =>
    rw [procElem_none acc e hx]
    refine ⟨?_, ?_, ?_, ?_, ?_⟩
    · intro a; rw [coordsOf_append_skip a processed e hx]; exact h1 a
    · intro a; rw [tfsOf_append_skip a processed e hx]; exact h2 a
    · intro a; rw [namesOf_append_skip a processed e hx]; exact h3 a
    · intro a; rw [namesOf_append_skip a processed e hx]; exact h4 a
    · rw [speciesSeq_append_skip processed e hx]
      exact h5
  | some v =>
    have hpc : procElem acc e =
        { atoms := if (alookup e.components acc.natoms).isSome then acc.atoms
            else acc.atoms ++ [e.components]
          natoms := bumpCount acc.natoms e.components
          atomco := dictAppend acc.atomco e.components v
          tfd := dictAppend acc.tfd e.components (tfOf e)
          named := dictAppend acc.named e.components (loadedName e) } := by
      rw [procElem, hx]
    rw [hpc]
    refine ⟨?_, ?_, ?_, ?_, ?_⟩
    · intro a
      rw [coordsOf_append_one a processed e v hx]
      by_cases hc : e.components = a
      · subst hc
        rw [alookup_dictAppend_same, h1, listOpt_getD, if_pos rfl,
          listOpt_append]
      · rw [alookup_dictAppend_other _ _ _ _ (fun hc2 => hc hc2.symm),
          if_neg hc, List.append_nil]
        exact h1 a
    · intro a
      rw [tfsOf_append_one a processed e v hx]
      by_cases hc : e.components = a
      · subst hc
        rw [alookup_dictAppend_same, h2, listOpt_getD, if_pos rfl,
          listOpt_append]
      · rw [alookup_dictAppend_other _ _ _ _ (fun hc2 => hc hc2.symm),
          if_neg hc, List.append_nil]
        exact h2 a
    · intro a
      rw [namesOf_append_one a processed e v hx]
      by_cases hc : e.components = a
      · subst hc
        rw [alookup_dictAppend_same, h3, listOpt_getD, if_pos rfl,
          listOpt_append]
      · rw [alookup_dictAppend_other _ _ _ _ (fun hc2 => hc hc2.symm),
          if_neg hc, List.append_nil]
        exact h3 a
    · intro a
      rw [namesOf_append_one a processed e v hx]
      by_cases hc : e.components = a
      · subst hc
        rw [alookup_bumpCount_same, h4, natOpt_getD, if_pos rfl]
        simp [natOpt]
      · rw [alookup_bumpCount_other _ _ _ (fun hc2 => hc hc2.symm),
          if_neg hc, List.append_nil]
        exact h4 a
    · have h5' : acc.atoms = firstOccA [] (speciesSeq processed) := h5
      rw [speciesSeq_append_one processed e v hx, firstOcc,
        firstOccA_append_elem, ← h5', h4]
      by_cases hn : namesOf e.components processed = []
      · have c1 : (natOpt (namesOf e.components processed).length).isSome
            = false := by
          rw [hn]; simp [natOpt]
        have c2 : e.components ∉ acc.atoms := by
          rw [h5', mem_firstOccA]
          simp only [List.not_mem_nil, false_or]
          rw [mem_speciesSeq_iff_namesOf]
          simp [hn]
        simp [c1, c2]
      · have c1 : (natOpt (namesOf e.components processed).length).isSome
            = true := by
          have : (namesOf e.components processed).length ≠ 0 := by
            simpa using hn
          simp [natOpt, this]
        have c2 : e.components ∈ acc.atoms := by
          rw [h5', mem_firstOccA]
          exact Or.inr ((mem_speciesSeq_iff_namesOf _ _).mpr hn)
        simp [c1, c2]

/-- The grouping invariant extends through the fold of `get_atom_info`. -/
theorem procElem_fold_inv (l : List Atom3dElem) :
    ∀ (processed : List Atom3dElem) (acc : AtomAcc),
    (∀ a, alookup a acc.atomco = listOpt (coordsOf a processed)) →
    (∀ a, alookup a acc.tfd = listOpt (tfsOf a processed)) →
    (∀ a, alookup a acc.named = listOpt (namesOf a processed)) →
    (∀ a, alookup a acc.natoms = natOpt (namesOf a processed).length) →
    acc.atoms = firstOcc (speciesSeq processed) →
    (∀ a, alookup a (l.foldl procElem acc).atomco
      = listOpt (coordsOf a (processed ++ l))) ∧
    (∀ a, alookup a (l.foldl procElem acc).tfd
      = listOpt (tfsOf a (processed ++ l))) ∧
    (∀ a, alookup a (l.foldl procElem acc).named
      = listOpt (namesOf a (processed ++ l))) ∧
    (∀ a, alookup a (l.foldl procElem acc).natoms
      = natOpt (namesOf a (processed ++ l)).length) ∧
    (l.foldl procElem acc).atoms = firstOcc (speciesSeq (processed ++ l)) := by
  induction l with
  | nil =>
    intro processed acc h1 h2 h3 h4 h5
    simpa using ⟨h1, h2, h3, h4, h5⟩
  | cons e l' ih =>
    intro processed acc h1 h2 h3 h4 h5
    obtain ⟨g1, g2, g3, g4, g5⟩ := procElem_step processed acc e h1 h2 h3 h4 h5
    have := ih (processed ++ [e]) (procElem acc e) g1 g2 g3 g4 g5
    simpa [List.append_assoc] using this

/-- The grouping invariant for `get_atom_info` itself. -/
theorem get_atom_info_inv (l : List Atom3dElem) :
    (∀ a, alookup a (get_atom_info l).atomco = listOpt (coordsOf a l)) ∧
    (∀ a, alookup a (get_atom_info l).tfd = listOpt (tfsOf a l)) ∧
    (∀ a, alookup a (get_atom_info l).named = listOpt (namesOf a l)) ∧
    (∀ a, alookup a (get_atom_info l).natoms
      = natOpt (namesOf a l).length) ∧
    (get_atom_info l).atoms = firstOcc (speciesSeq l) := by
  have := procElem_fold_inv l [] ⟨[], [], [], [], []⟩
    (fun a => by simp [alookup, coordsOf, listOpt])
    (fun a => by simp [alookup, tfsOf, listOpt])
    (fun a => by simp [alookup, namesOf, listOpt])
    (fun a => by simp [alookup, namesOf, natOpt])
    (by simp [firstOcc, firstOccA, speciesSeq])
  simpa [get_atom_info] using this

/-- Shape facts about a freshly loaded state: the flattened arrays all have
length `ntot`, and the per-species counts sum to `ntot`. -/
theorem mkState_shape (doc : XsdDoc) (l : List Atom3dElem) (nd : NameData) :
    (mkState doc (get_atom_info l) nd).data.length
        = (mkState doc (get_atom_info l) nd).ntot ∧
    (mkState doc (get_atom_info l) nd).tf.length
        = (mkState doc (get_atom_info l) nd).ntot ∧
    (mkState doc (get_atom_info l) nd).atom_names.length
        = (mkState doc (get_atom_info l) nd).ntot ∧
    (mkState doc (get_atom_info l) nd).atoms_num.sum
        = (mkState doc (get_atom_info l) nd).ntot := by
  obtain ⟨h1, h2, h3, h4, _⟩ := get_atom_info_inv l
  have e1 : ∀ a, (alookup a (get_atom_info l).atomco).getD [] = coordsOf a l :=
    fun a => by rw [h1 a, listOpt_getD]
  have e2 : ∀ a, (alookup a (get_atom_info l).tfd).getD [] = tfsOf a l :=
    fun a => by rw [h2 a, listOpt_getD]
  have e3 : ∀ a, (alookup a (get_atom_info l).named).getD [] = namesOf a l :=
    fun a => by rw [h3 a, listOpt_getD]
  have e4 : ∀ a, (alookup a (get_atom_info l).natoms).getD 0
      = (namesOf a l).length :=
    fun a => by rw [h4 a, natOpt_getD]
  refine ⟨?_, ?_, ?_, ?_⟩
  · simp only [mkState, List.length_flatMap, Function.comp]
    congr 1
    refine List.map_congr_left ?_
    intro a _
    simp only [Function.comp_apply]
    rw [e1 a, e3 a, coordsOf_length_eq]
  · simp only [mkState, List.length_flatMap, Function.comp]
    congr 1
    refine List.map_congr_left ?_
    intro a _
    simp only [Function.comp_apply]
    rw [e2 a, e3 a, tfsOf_length_eq]
  · simp only [mkState]
  · simp only [mkState, List.length_flatMap, Function.comp]
    congr 1
    refine List.map_congr_left ?_
    intro a _
    simp only [Function.comp_apply]
    rw [e4 a, e3 a]

/-- Inversion of a successful `load`. -/
theorem load_ok_inv (doc : XsdDoc) (cwd : String) (st : XsdState)
    (doc1 : XsdDoc) (h : load doc cwd = .ok (st, doc1)) :
    ∃ sym rest, doc.symSystems = sym :: rest ∧
      doc1 = { doc with rootWrittenBy := some "VASPy" } ∧
      st = mkState doc1 (get_atom_info doc1.atomElems)
        (get_name_info sym.name cwd) := by
  cases hsym : doc.symSystems with
  | nil =>
    simp only [load] at h
    rw [show ({ doc with rootWrittenBy := some "VASPy" } : XsdDoc).symSystems
        = doc.symSystems from rfl, hsym] at h
    simp at h
  | cons sym rest =>
    simp only [load] at h
    rw [show ({ doc with rootWrittenBy := some "VASPy" } : XsdDoc).symSystems
        = doc.symSystems from rfl, hsym] at h
    simp only [List.head?_cons, Except.ok.injEq, Prod.mk.injEq] at h
    refine ⟨sym, rest, ?_, h.2.symm, ?_⟩
    · rfl
    · rw [← h.2, ← h.1]

/-! ## Claim C8: stable species grouping -/

/-- Claim C8 (confirmed): (a) two atom-element sequences that are
permutations of each other within each species and agree on the
first-occurrence order of species load to the identical ordered species
list (the species list is exactly the first-occurrence deduplication of
the per-atom species sequence); (b) for every loaded document the
per-species counts sum to `ntot`; (c) an atom element without the `XYZ`
attribute is skipped entirely — deleting it from the document leaves the
whole grouping result unchanged. -/
theorem species_grouping_det (xs ys l1 l2 : List Atom3dElem)
    (e : Atom3dElem) (doc : XsdDoc) (cwd : String) (st : XsdState)
    (doc1 : XsdDoc)
    (_hperm : ∀ sp ∈ firstOcc (speciesSeq xs),
      List.Perm (xs.filter (fun x => x.xyz.isSome && (x.components == sp)))
        (ys.filter (fun x => x.xyz.isSome && (x.components == sp))))
    (hord : firstOcc (speciesSeq xs) = firstOcc (speciesSeq ys))
    (hload : load doc cwd = .ok (st, doc1))
    (hskip : e.xyz = none) :
    (get_atom_info xs).atoms = (get_atom_info ys).atoms ∧
    st.atoms_num.sum = st.ntot ∧
    get_atom_info (l1 ++ e :: l2) = get_atom_info (l1 ++ l2) := by
  refine ⟨?_, ?_, ?_⟩
  · rw [(get_atom_info_inv xs).2.2.2.2, (get_atom_info_inv ys).2.2.2.2, hord]
  · obtain ⟨sym, rest, hsym, hdoc1, hst⟩ := load_ok_inv doc cwd st doc1 hload
    rw [hst]
    exact (mkState_shape doc1 doc1.atomElems (get_name_info sym.name cwd)).2.2.2
  · rw [get_atom_info, get_atom_info, List.foldl_append, List.foldl_append,
      List.foldl_cons, procElem_none _ e hskip]

/-- Witness for C8: swapping the two `A` atoms (a within-species
permutation keeping species order `A`, `B`) leaves the species list
unchanged; the loaded `doc0` has counts summing to `ntot`; dropping the
`XYZ`-less element changes nothing. -/
theorem species_grouping_det_witness :
    (get_atom_info [eA1, eA2, eB1]).atoms
      = (get_atom_info [eA2, eA1, eB1]).atoms ∧
    st0.atoms_num.sum = st0.ntot ∧
    get_atom_info ([eA1] ++ eSkip :: [eB1]) = get_atom_info ([eA1] ++ [eB1]) :=
  species_grouping_det [eA1, eA2, eB1] [eA2, eA1, eB1] [eA1] [eB1] eSkip
    doc0 "/w" st0 doc0w
    (fun sp _ => List.Perm.filter _ (List.Perm.swap eA2 eA1 [eB1]))
    (by decide) rfl rfl

/-! ## The round-trip machinery for `update_atoms` -/

theorem append_custom_ne_empty (s : String) : s ++ "_custom" ≠ "" := by
  intro h
  have h2 := congrArg String.length h
  rw [String.length_append] at h2
  have h7 : ("_custom" : String).length = 7 := rfl
  have h0 : ("" : String).length = 0 := rfl
  rw [h7, h0] at h2
  omega

theorem loadedName_ne_empty (e : Atom3dElem) : loadedName e ≠ "" := by
  cases hn : e.name with
  | none => simp only [loadedName, hn]; exact append_custom_ne_empty _
  | some n =>
    by_cases hne : n = ""
    · simp only [loadedName, hn, if_pos hne]
      exact append_custom_ne_empty _
    · simp only [loadedName, hn, if_neg hne]
      exact hne

/-- On an element whose current attributes already encode the stored
values, the write-back only (re)sets the `Name` attribute. -/
theorem writeAtomAttrs_self (e : Atom3dElem) (v : List ℚ) (n : String)
    (hx : e.xyz = some v) :
    writeAtomAttrs v (tfOf e) n e = { e with name := some n } := by
  have hF : String.intercalate "," ["F", "F", "F"] = "F,F,F" := rfl
  have hT : String.intercalate "," ["T", "T", "T"] = "T,T,T" := rfl
  cases e with
  | mk comps xyz restr nm col oth =>
    change xyz = some v at hx
    subst hx
    cases restr with
    | none => simp [writeAtomAttrs, tfOf, hT, hF]
    | some r => simp [writeAtomAttrs, tfOf, hT, hF]

theorem loadedName_set (e : Atom3dElem) :
    loadedName { e with name := some (loadedName e) } = loadedName e := by
  have h : ({ e with name := some (loadedName e) } : Atom3dElem).name
      = some (loadedName e) := rfl
  rw [loadedName, h]
  simp [loadedName_ne_empty e]

theorem rewriteForSet_nil (e : Atom3dElem) : rewriteForSet [] e = e := by
  rw [rewriteForSet]
  simp

theorem rewriteForSet_components (S : List String) (e : Atom3dElem) :
    (rewriteForSet S e).components = e.components := by
  rw [rewriteForSet]; split <;> rfl

theorem rewriteForSet_xyz (S : List String) (e : Atom3dElem) :
    (rewriteForSet S e).xyz = e.xyz := by
  rw [rewriteForSet]; split <;> rfl

theorem rewriteForSet_restricted (S : List String) (e : Atom3dElem) :
    (rewriteForSet S e).restricted = e.restricted := by
  rw [rewriteForSet]; split <;> rfl

theorem tfOf_rewriteForSet (S : List String) (e : Atom3dElem) :
    tfOf (rewriteForSet S e) = tfOf e := by
  rw [tfOf, tfOf, rewriteForSet_restricted]

theorem loadedName_rewriteForSet (S : List String) (e : Atom3dElem) :
    loadedName (rewriteForSet S e) = loadedName e := by
  rw [rewriteForSet]
  split
  · exact loadedName_set e
  · rfl

/-- Generic: mapping `g` under a `filterMap` whose function is blind to
`g` changes nothing. -/
theorem filterMap_map_congr {α β : Type} (g : α → α) (f : α → Option β)
    (h : ∀ x, f (g x) = f x) (l : List α) :
    (l.map g).filterMap f = l.filterMap f := by
  induction l with
  | nil => rfl
  | cons e l' ih =>
    rw [List.map_cons, List.filterMap_cons, List.filterMap_cons, h e, ih]

theorem coordsOf_map_rewriteForSet (a : String) (S : List String)
    (l : List Atom3dElem) :
    coordsOf a (l.map (rewriteForSet S)) = coordsOf a l :=
  filterMap_map_congr _ _
    (fun e => by rw [rewriteForSet_components, rewriteForSet_xyz]) l

theorem tfsOf_map_rewriteForSet (a : String) (S : List String)
    (l : List Atom3dElem) :
    tfsOf a (l.map (rewriteForSet S)) = tfsOf a l :=
  filterMap_map_congr _ _
    (fun e => by
      rw [rewriteForSet_components, rewriteForSet_xyz, tfOf_rewriteForSet]) l

theorem namesOf_map_rewriteForSet (a : String) (S : List String)
    (l : List Atom3dElem) :
    namesOf a (l.map (rewriteForSet S)) = namesOf a l :=
  filterMap_map_congr _ _
    (fun e => by
      rw [rewriteForSet_components, rewriteForSet_xyz,
        loadedName_rewriteForSet]) l

theorem coordsOf_cons_match (a : String) (e : Atom3dElem)
    (l : List Atom3dElem) (v : List ℚ) (hv : e.xyz = some v)
    (hc : e.components = a) :
    coordsOf a (e :: l) = v :: coordsOf a l := by
  rw [coordsOf, List.filterMap_cons, if_pos hc, hv]
  rfl

theorem coordsOf_cons_skip (a : String) (e : Atom3dElem)
    (l : List Atom3dElem) (h : ¬(e.xyz.isSome = true ∧ e.components = a)) :
    coordsOf a (e :: l) = coordsOf a l := by
  rw [coordsOf, List.filterMap_cons]
  by_cases hc : e.components = a
  · cases hxx : e.xyz with
    | none => rw [if_pos hc]; rfl
    | some v => exact absurd ⟨by rw [hxx]; rfl, hc⟩ h
  · rw [if_neg hc]; rfl

theorem tfsOf_cons_match (a : String) (e : Atom3dElem) (l : List Atom3dElem)
    (hx : e.xyz.isSome = true) (hc : e.components = a) :
    tfsOf a (e :: l) = tfOf e :: tfsOf a l := by
  rw [tfsOf, List.filterMap_cons, if_pos ⟨hc, hx⟩]
  rfl

theorem tfsOf_cons_skip (a : String) (e : Atom3dElem) (l : List Atom3dElem)
    (h : ¬(e.xyz.isSome = true ∧ e.components = a)) :
    tfsOf a (e :: l) = tfsOf a l := by
  rw [tfsOf, List.filterMap_cons, if_neg (fun hcon => h ⟨hcon.2, hcon.1⟩)]
  rfl

theorem namesOf_cons_match (a : String) (e : Atom3dElem)
    (l : List Atom3dElem) (hx : e.xyz.isSome = true)
    (hc : e.components = a) :
    namesOf a (e :: l) = loadedName e :: namesOf a l := by
  rw [namesOf, List.filterMap_cons, if_pos ⟨hc, hx⟩]
  rfl

theorem namesOf_cons_skip (a : String) (e : Atom3dElem)
    (l : List Atom3dElem) (h : ¬(e.xyz.isSome = true ∧ e.components = a)) :
    namesOf a (e :: l) = namesOf a l := by
  rw [namesOf, List.filterMap_cons, if_neg (fun hcon => h ⟨hcon.2, hcon.1⟩)]
  rfl

/-- The single-species walk of `update_atoms`, fed dictionary entries that
are exactly the projections of the remaining elements, rewrites each
matching element in place — and since the stored coordinate and
freeze-flag triple are the element's own, only the `Name` attribute
changes. -/
theorem update_atoms_walk_eq (atomco : List (String × List (List ℚ)))
    (tfd : List (String × List (List String)))
    (named : List (String × List String)) (a : String)
    (Lc : List (List ℚ)) (Lt : List (List String)) (Ln : List String)
    (hc : alookup a atomco = some Lc) (ht : alookup a tfd = some Lt)
    (hn : alookup a named = some Ln) :
    ∀ (cur : List Atom3dElem) (idx : ℕ),
    Lc.drop idx = coordsOf a cur → Lt.drop idx = tfsOf a cur →
    Ln.drop idx = namesOf a cur →
    update_atoms_walk atomco tfd named a idx cur
      = .ok (cur.map (fun e =>
          if e.xyz.isSome = true ∧ e.components = a
          then { e with name := some (loadedName e) } else e)) := by
  intro cur
  induction cur with
  | nil => intro idx _ _ _; rfl
  | cons e rest ih =>
    intro idx hdc hdt hdn
    have unf : update_atoms_walk atomco tfd named a idx (e :: rest) =
        if e.xyz.isSome = true ∧ e.components = a then
          match (alookup a atomco).bind (fun l => l.get? idx),
                (alookup a tfd).bind (fun l => l.get? idx),
                (alookup a named).bind (fun l => l.get? idx) with
          | some c, some t, some n =>
            (update_atoms_walk atomco tfd named a (idx + 1) rest).map
              (fun es => writeAtomAttrs c t n e :: es)
          | _, _, _ => .error "KeyError/IndexError in update_atoms"
        else
          (update_atoms_walk atomco tfd named a idx rest).map
            (fun es => e :: es) := rfl
    by_cases hm : e.xyz.isSome = true ∧ e.components = a
    · obtain ⟨hx1, hx2⟩ := hm
      obtain ⟨v, hv⟩ := Option.isSome_iff_exists.mp hx1
      rw [coordsOf_cons_match a e rest v hv hx2] at hdc
      rw [tfsOf_cons_match a e rest hx1 hx2] at hdt
      rw [namesOf_cons_match a e rest hx1 hx2] at hdn
      have hget_c : Lc.get? idx = some v := by
        rw [List.get?_eq_getElem? Lc idx, ← List.head?_drop, hdc]; rfl
      have hget_t : Lt.get? idx = some (tfOf e) := by
        rw [List.get?_eq_getElem? Lt idx, ← List.head?_drop, hdt]; rfl
      have hget_n : Ln.get? idx = some (loadedName e) := by
        rw [List.get?_eq_getElem? Ln idx, ← List.head?_drop, hdn]; rfl
      have hrec := ih (idx + 1)
        (by rw [← List.tail_drop, hdc]; rfl)
        (by rw [← List.tail_drop, hdt]; rfl)
        (by rw [← List.tail_drop, hdn]; rfl)
      rw [unf, if_pos (And.intro hx1 hx2), hc, ht, hn, Option.some_bind,
        Option.some_bind, Option.some_bind, hget_c, hget_t, hget_n]
      have hred : (match (some v : Option (List ℚ)),
            (some (tfOf e) : Option (List String)),
            (some (loadedName e) : Option String) with
          | some c, some t, some n =>
            (update_atoms_walk atomco tfd named a (idx + 1) rest).map
              (fun es => writeAtomAttrs c t n e :: es)
          | _, _, _ =>
            (.error "KeyError/IndexError in update_atoms" :
              Except String (List Atom3dElem)))
          = (update_atoms_walk atomco tfd named a (idx + 1) rest).map
              (fun es => writeAtomAttrs v (tfOf e) (loadedName e) e :: es) :=
        rfl
      rw [hred, hrec]
      have hmap : ((.ok (rest.map (fun e =>
            if e.xyz.isSome = true ∧ e.components = a
            then { e with name := some (loadedName e) } else e)) :
              Except String (List Atom3dElem)).map
            (fun es => writeAtomAttrs v (tfOf e) (loadedName e) e :: es))
          = .ok (writeAtomAttrs v (tfOf e) (loadedName e) e ::
              rest.map (fun e =>
                if e.xyz.isSome = true ∧ e.components = a
                then { e with name := some (loadedName e) } else e)) := rfl
      rw [hmap, writeAtomAttrs_self e v (loadedName e) hv]
      simp only [List.map_cons]
      rw [if_pos (And.intro hx1 hx2)]
    · rw [coordsOf_cons_skip a e rest hm] at hdc
      rw [tfsOf_cons_skip a e rest hm] at hdt
      rw [namesOf_cons_skip a e rest hm] at hdn
      have hrec := ih idx hdc hdt hdn
      rw [unf, if_neg hm, hrec]
      simp only [List.map_cons]
      rw [if_neg hm]
      rfl

/-- Rewriting the species-`a` elements of an element already processed for
the species set `S` yields the element processed for `S ++ [a]`. -/
theorem rewriteSelf_rewriteForSet (S : List String) (a : String)
    (e : Atom3dElem) :
    (fun x => if x.xyz.isSome = true ∧ x.components = a
      then { x with name := some (loadedName x) } else x) (rewriteForSet S e)
      = rewriteForSet (S ++ [a]) e := by
  by_cases hx : e.xyz.isSome = true
  · by_cases hS : e.components ∈ S
    · have h1 : rewriteForSet S e = { e with name := some (loadedName e) } := by
        rw [rewriteForSet, if_pos ⟨hx, hS⟩]
      have h2 : rewriteForSet (S ++ [a]) e
          = { e with name := some (loadedName e) } := by
        rw [rewriteForSet, if_pos ⟨hx, List.mem_append.mpr (Or.inl hS)⟩]
      rw [h1, h2]
      by_cases ha : e.components = a
      · have hcond : (({ e with name := some (loadedName e) } :
            Atom3dElem).xyz.isSome = true ∧
            ({ e with name := some (loadedName e) } :
              Atom3dElem).components = a) := ⟨hx, ha⟩
        simp only [if_pos hcond]
        rw [loadedName_set]
      · exact if_neg (fun hcon => ha hcon.2)
    · have h1 : rewriteForSet S e = e := by
        rw [rewriteForSet, if_neg (fun hcon => hS hcon.2)]
      rw [h1]
      by_cases ha : e.components = a
      · simp only [if_pos (And.intro hx ha)]
        rw [rewriteForSet,
          if_pos ⟨hx, List.mem_append.mpr (Or.inr (by simp [ha]))⟩]
      · simp only [if_neg (fun hcon => ha (And.right hcon))]
        rw [rewriteForSet]
        rw [if_neg]
        intro hcon
        rcases List.mem_append.mp hcon.2 with h | h
        · exact hS h
        · exact ha (by simpa using h)
  · have h1 : rewriteForSet S e = e := by
      rw [rewriteForSet, if_neg (fun hcon => hx hcon.1)]
    rw [h1]
    simp only [if_neg (fun hcon => hx (And.left hcon))]
    rw [rewriteForSet, if_neg (fun hcon => hx hcon.1)]

/-- The species loop of `update_atoms` over any suffix of the species
list. -/
theorem update_atoms_loop_eq (atomco : List (String × List (List ℚ)))
    (tfd : List (String × List (List String)))
    (named : List (String × List String)) (elems0 : List Atom3dElem) :
    ∀ (todo : List String) (S : List String),
    (∀ a ∈ todo, alookup a atomco = some (coordsOf a elems0) ∧
      alookup a tfd = some (tfsOf a elems0) ∧
      alookup a named = some (namesOf a elems0)) →
    update_atoms_loop atomco tfd named todo (elems0.map (rewriteForSet S))
      = .ok (elems0.map (rewriteForSet (S ++ todo))) := by
  intro todo
  induction todo with
  | nil => intro S _; simp [update_atoms_loop]
  | cons a rest ih =>
    intro S hd
    obtain ⟨hca, hta, hna⟩ := hd a (List.mem_cons_self a rest)
    have hwalk := update_atoms_walk_eq atomco tfd named a _ _ _ hca hta hna
      (elems0.map (rewriteForSet S)) 0
      (by rw [List.drop_zero, coordsOf_map_rewriteForSet])
      (by rw [List.drop_zero, tfsOf_map_rewriteForSet])
      (by rw [List.drop_zero, namesOf_map_rewriteForSet])
    have unf : update_atoms_loop atomco tfd named (a :: rest)
        (elems0.map (rewriteForSet S)) =
        match update_atoms_walk atomco tfd named a 0
            (elems0.map (rewriteForSet S)) with
        | .ok es' => update_atoms_loop atomco tfd named rest es'
        | .error m => .error m := rfl
    rw [unf, hwalk]
    have hcomp : (elems0.map (rewriteForSet S)).map
        (fun e => if e.xyz.isSome = true ∧ e.components = a
          then { e with name := some (loadedName e) } else e)
        = elems0.map (rewriteForSet (S ++ [a])) := by
      rw [List.map_map]
      exact List.map_congr_left
        (fun e _ => rewriteSelf_rewriteForSet S a e)
    have hred : (match (.ok ((elems0.map (rewriteForSet S)).map
          (fun e => if e.xyz.isSome = true ∧ e.components = a
            then { e with name := some (loadedName e) } else e)) :
          Except String (List Atom3dElem)) with
        | .ok es' => update_atoms_loop atomco tfd named rest es'
        | .error m => .error m)
        = update_atoms_loop atomco tfd named rest
            ((elems0.map (rewriteForSet S)).map
              (fun e => if e.xyz.isSome = true ∧ e.components = a
                then { e with name := some (loadedName e) } else e)) := rfl
    rw [hred, hcomp,
      ih (S ++ [a]) (fun b hb => hd b (List.mem_cons.mpr (Or.inr hb)))]
    rw [List.append_assoc, List.singleton_append]

theorem listOpt_of_ne_nil {α : Type} (l : List α) (h : l ≠ []) :
    listOpt l = some l := by
  cases l with
  | nil => exact absurd rfl h
  | cons x xs => rfl

theorem map_rewriteForSet_nil (l : List Atom3dElem) :
    l.map (rewriteForSet []) = l := by
  induction l with
  | nil => rfl
  | cons e l' ih => rw [List.map_cons, rewriteForSet_nil, ih]

theorem mem_speciesSeq_of_mem (l : List Atom3dElem) (e : Atom3dElem)
    (he : e ∈ l) (hx : e.xyz.isSome = true) :
    e.components ∈ speciesSeq l := by
  rw [speciesSeq, List.mem_filterMap]
  exact ⟨e, he, by rw [if_pos hx]⟩

/-- On a freshly loaded state, `update_atoms` succeeds and only (re)writes
each structural atom's `Name` attribute to its loaded display name; every
other attribute is rewritten to its current value or left alone. -/
theorem update_atoms_after_load (doc1 : XsdDoc) (nd : NameData) :
    update_atoms (mkState doc1 (get_atom_info doc1.atomElems) nd) doc1
      = .ok { doc1 with atomElems := doc1.atomElems.map reloadNameFn } := by
  obtain ⟨h1, h2, h3, h4, h5⟩ := get_atom_info_inv doc1.atomElems
  have hdict : ∀ a ∈ (get_atom_info doc1.atomElems).atoms,
      alookup a (get_atom_info doc1.atomElems).atomco
        = some (coordsOf a doc1.atomElems) ∧
      alookup a (get_atom_info doc1.atomElems).tfd
        = some (tfsOf a doc1.atomElems) ∧
      alookup a (get_atom_info doc1.atomElems).named
        = some (namesOf a doc1.atomElems) := by
    intro a ha
    have hmem : a ∈ speciesSeq doc1.atomElems :=
      (mem_firstOcc _ _).mp (h5 ▸ ha)
    have hnn : namesOf a doc1.atomElems ≠ [] :=
      (mem_speciesSeq_iff_namesOf _ _).mp hmem
    have hcn : coordsOf a doc1.atomElems ≠ [] := by
      intro hcon
      apply hnn
      have hl := coordsOf_length_eq a doc1.atomElems
      rw [hcon] at hl
      exact (List.length_eq_zero.mp hl.symm)
    have htn : tfsOf a doc1.atomElems ≠ [] := by
      intro hcon
      apply hnn
      have hl := tfsOf_length_eq a doc1.atomElems
      rw [hcon] at hl
      exact (List.length_eq_zero.mp hl.symm)
    exact ⟨by rw [h1 a, listOpt_of_ne_nil _ hcn],
      by rw [h2 a, listOpt_of_ne_nil _ htn],
      by rw [h3 a, listOpt_of_ne_nil _ hnn]⟩
  have hloop := update_atoms_loop_eq (get_atom_info doc1.atomElems).atomco
    (get_atom_info doc1.atomElems).tfd (get_atom_info doc1.atomElems).named
    doc1.atomElems (get_atom_info doc1.atomElems).atoms [] hdict
  rw [map_rewriteForSet_nil, List.nil_append] at hloop
  have hfin : doc1.atomElems.map
      (rewriteForSet (get_atom_info doc1.atomElems).atoms)
      = doc1.atomElems.map reloadNameFn := by
    refine List.map_congr_left ?_
    intro e he
    by_cases hx : e.xyz.isSome = true
    · have hmem : e.components ∈ (get_atom_info doc1.atomElems).atoms := by
        rw [h5, mem_firstOcc]
        exact mem_speciesSeq_of_mem doc1.atomElems e he hx
      rw [rewriteForSet, if_pos ⟨hx, hmem⟩, reloadNameFn, if_pos hx]
    · rw [rewriteForSet, if_neg (fun hcon => hx hcon.1), reloadNameFn,
        if_neg hx]
  rw [hfin] at hloop
  have unf : update_atoms (mkState doc1 (get_atom_info doc1.atomElems) nd)
      doc1 = (update_atoms_loop (get_atom_info doc1.atomElems).atomco
        (get_atom_info doc1.atomElems).tfd
        (get_atom_info doc1.atomElems).named
        (get_atom_info doc1.atomElems).atoms doc1.atomElems).map
        (fun es => { doc1 with atomElems := es }) := rfl
  rw [unf, hloop]
  rfl

/-- Writing back the bases read by `get_bases` is the identity on any
document with the same `SpaceGroup` list. -/
theorem update_bases_get_bases (d d2 : XsdDoc)
    (h : d2.spaceGroups = d.spaceGroups) :
    update_bases_core (get_bases d) d2 = .ok d2 := by
  cases hsg : d.spaceGroups with
  | nil =>
    have h1 : get_bases d = [] := by rw [get_bases, hsg]; rfl
    have h2 : d2.spaceGroups = [] := by rw [h, hsg]
    rw [update_bases_core, h2, h1]
  | cons sg rest =>
    have h1 : get_bases d = [sg.avec, sg.bvec, sg.cvec] := by
      rw [get_bases, hsg]; rfl
    have h2 : d2.spaceGroups = sg :: rest := by rw [h, hsg]
    rw [update_bases_core, h2, h1]
    have hsge :
        ({ sg with
            avec := sg.avec
            bvec := sg.bvec
            cvec := sg.cvec } : SpaceGroupElem) = sg := rfl
    show (Except.ok
        { d2 with
            spaceGroups :=
              ({ sg with
                  avec := sg.avec
                  bvec := sg.bvec
                  cvec := sg.cvec } : SpaceGroupElem) :: rest } :
      Except String XsdDoc) = Except.ok d2
    rw [hsge, ← h2]

/-- Full `update` on a freshly loaded state: the shape checks pass, the
atoms keep coordinates/markers and get their loaded names written, the
bases rewrite is the identity, and the metadata attribute of the first
`SymmetrySystem` element is re-encoded from the scalar fields with the
current working directory. -/
theorem update_after_load_general (doc1 : XsdDoc) (nd : NameData)
    (cwd : String) (sym : SymSysElem) (rest : List SymSysElem)
    (hds : doc1.symSystems = sym :: rest) (ev fv mv : ℚ)
    (hev : nd.energy = some ev) (hfv : nd.force = some fv)
    (hmv : nd.magnetism = some mv) :
    update (mkState doc1 (get_atom_info doc1.atomElems) nd) cwd doc1
      = .ok { doc1 with
          atomElems := doc1.atomElems.map reloadNameFn
          symSystems := { sym with name := encodeNameStr ev fv mv cwd }
            :: rest } := by
  obtain ⟨hs1, hs2, hs3, _⟩ :=
    mkState_shape doc1 doc1.atomElems nd
  have c1 : ¬((mkState doc1 (get_atom_info doc1.atomElems) nd).ntot
      ≠ (mkState doc1 (get_atom_info doc1.atomElems) nd).data.length) :=
    fun hcon => hcon hs1.symm
  have c2 : ¬((mkState doc1 (get_atom_info doc1.atomElems) nd).ntot
      ≠ (mkState doc1 (get_atom_info doc1.atomElems) nd).tf.length) :=
    fun hcon => hcon hs2.symm
  have c3 : ¬((mkState doc1 (get_atom_info doc1.atomElems) nd).ntot
      ≠ (mkState doc1 (get_atom_info doc1.atomElems) nd).atom_names.length) :=
    fun hcon => hcon hs3.symm
  have hB : update_bases (mkState doc1 (get_atom_info doc1.atomElems) nd)
      { doc1 with atomElems := doc1.atomElems.map reloadNameFn }
      = .ok { doc1 with atomElems := doc1.atomElems.map reloadNameFn } :=
    update_bases_get_bases doc1
      { doc1 with atomElems := doc1.atomElems.map reloadNameFn } rfl
  have hN : update_name (mkState doc1 (get_atom_info doc1.atomElems) nd) cwd
      { doc1 with atomElems := doc1.atomElems.map reloadNameFn }
      = .ok { doc1 with
          atomElems := doc1.atomElems.map reloadNameFn
          symSystems := { sym with name := encodeNameStr ev fv mv cwd }
            :: rest } := by
    have hproj : ({ doc1 with
        atomElems := doc1.atomElems.map reloadNameFn } : XsdDoc).symSystems
        = sym :: rest := hds
    rw [update_name]
    have he2 : (mkState doc1 (get_atom_info doc1.atomElems) nd).energy
        = some ev := hev
    have hf2 : (mkState doc1 (get_atom_info doc1.atomElems) nd).force
        = some fv := hfv
    have hm2 : (mkState doc1 (get_atom_info doc1.atomElems) nd).magnetism
        = some mv := hmv
    rw [he2, hf2, hm2, update_name_core]
    rw [show ({ doc1 with
        atomElems := doc1.atomElems.map reloadNameFn } : XsdDoc).symSystems
        = sym :: rest from hproj]
  rw [update, if_neg c1, if_neg c2, if_neg c3,
    update_atoms_after_load doc1 nd]
  simp only [hB, hN]

/-! ## Claim C1: the load→update round trip -/

/-- Claim C1 (corrected): for every document loaded successfully whose
decoded metadata left all three scalar fields assigned, an immediate
`update` succeeds and, at the semantic level of re-parsed float values:
each structural atom's coordinate and restriction-marker attribute is
rewritten to exactly its loaded value, its name attribute is set to the
loaded display name, elements without a coordinate attribute and all other
attributes and nodes are untouched, and the lattice axis-vector attributes
are rewritten to their loaded values — with the single exception that the
packed metadata attribute of the first `SymmetrySystem` element is
re-encoded from the scalar fields with a freshly resolved working
directory, so that document node does not retain its original value. -/
theorem load_update_roundtrip (doc : XsdDoc) (cwd : String) (st : XsdState)
    (doc1 : XsdDoc) (hload : load doc cwd = .ok (st, doc1))
    (he : st.energy.isSome = true) (hf : st.force.isSome = true)
    (hm : st.magnetism.isSome = true) :
    update st cwd doc1 = .ok { doc1 with
      atomElems := doc1.atomElems.map reloadNameFn
      symSystems := setHeadSymName
        (encodeNameStr (st.energy.getD 0) (st.force.getD 0)
          (st.magnetism.getD 0) cwd) doc1.symSystems } := by
  obtain ⟨sym, rest, hsym, hdoc1, hst⟩ := load_ok_inv doc cwd st doc1 hload
  have hds : doc1.symSystems = sym :: rest := by rw [hdoc1]; exact hsym
  obtain ⟨ev, hev⟩ := Option.isSome_iff_exists.mp he
  obtain ⟨fv, hfv⟩ := Option.isSome_iff_exists.mp hf
  obtain ⟨mv, hmv⟩ := Option.isSome_iff_exists.mp hm
  have hev2 : (get_name_info sym.name cwd).energy = some ev := by
    rw [← show st.energy = (get_name_info sym.name cwd).energy from
      by rw [hst]; rfl]
    exact hev
  have hfv2 : (get_name_info sym.name cwd).force = some fv := by
    rw [← show st.force = (get_name_info sym.name cwd).force from
      by rw [hst]; rfl]
    exact hfv
  have hmv2 : (get_name_info sym.name cwd).magnetism = some mv := by
    rw [← show st.magnetism = (get_name_info sym.name cwd).magnetism from
      by rw [hst]; rfl]
    exact hmv
  have hmain := update_after_load_general doc1 (get_name_info sym.name cwd)
    cwd sym rest hds ev fv mv hev2 hfv2 hmv2
  rw [hst]
  have hg1 : (mkState doc1 (get_atom_info doc1.atomElems)
      (get_name_info sym.name cwd)).energy = some ev := hev2
  have hg2 : (mkState doc1 (get_atom_info doc1.atomElems)
      (get_name_info sym.name cwd)).force = some fv := hfv2
  have hg3 : (mkState doc1 (get_atom_info doc1.atomElems)
      (get_name_info sym.name cwd)).magnetism = some mv := hmv2
  rw [hg1, hg2, hg3, Option.getD_some, Option.getD_some, Option.getD_some,
    hmain]
  have hhead : setHeadSymName (encodeNameStr ev fv mv cwd) doc1.symSystems
      = { sym with name := encodeNameStr ev fv mv cwd } :: rest := by
    rw [hds]
    rfl
  rw [hhead]

/-- Witness for C1: on the concrete `doc0`, load then update succeeds and
produces exactly the name-reloaded atoms and the re-encoded metadata
attribute. -/
theorem load_update_roundtrip_witness :
    load doc0 "/w" = .ok (st0, doc0w) ∧
    update st0 "/w" doc0w = .ok { doc0w with
      atomElems := doc0w.atomElems.map reloadNameFn
      symSystems := setHeadSymName
        (encodeNameStr (st0.energy.getD 0) (st0.force.getD 0)
          (st0.magnetism.getD 0) "/w") doc0w.symSystems } :=
  ⟨rfl, load_update_roundtrip doc0 "/w" st0 doc0w rfl (by decide) (by decide)
    (by decide)⟩

/-- Counterexample to C1 as stated: after loading `docGarbage` (whose
metadata string decodes to the 0-defaults) and updating immediately with
nothing mutated, the packed metadata attribute of the `SymmetrySystem`
element — a document node outside the claim's list of touched attributes
(atom coordinates, restriction markers, names, lattice vectors) — does not
keep its original value `"relaxed_surface_run"`: it is re-encoded as
`"E:0 F:0 M:0 P:/w"`.  So "every other document node unchanged" fails. -/
theorem roundtrip_metadata_counterexample :
    load docGarbage "/w" = .ok (stGarbage, docGarbagew) ∧
    update stGarbage "/w" docGarbagew =
      .ok { docGarbagew with
        atomElems := docGarbagew.atomElems.map reloadNameFn
        symSystems := [{ name := "E:0 F:0 M:0 P:/w", others := [] }] } ∧
    docGarbagew.symSystems
      = [{ name := "relaxed_surface_run", others := [] }] ∧
    ({ name := "E:0 F:0 M:0 P:/w", others := [] } : SymSysElem)
      ≠ { name := "relaxed_surface_run", others := [] } := by
  refine ⟨rfl, ?_, rfl, by decide⟩
  rfl

/-! ## Claim C7: the trajectory reader -/

theorem arcRun_cons_ok (st : ArcState) (l : String) (rest : List String)
    (st' : ArcState) (h : arcLine st l = .ok st') :
    arcRun st (l :: rest) = arcRun st' rest := by
  have unf : arcRun st (l :: rest) =
      match arcLine st l with
      | .ok st2 => arcRun st2 rest
      | .error m => .error m := rfl
  rw [unf, h]

/-- A data line inside a block appends its parsed coordinates. -/
theorem arcLine_data (cs : List (List ℚ)) (fs : List (List (List ℚ)))
    (l : String) (r : List ℚ) (hp : parseCoordLine (pyStrip l) = some r)
    (hnd : pyStartsWith (pyStrip l) "end" = false) :
    arcLine ⟨true, cs, fs⟩ l = .ok ⟨true, cs ++ [r], fs⟩ := by
  simp only [arcLine]
  rw [if_neg (fun hcon => absurd hcon.1 (by decide))]
  rw [if_neg (fun hcon => absurd (hnd ▸ hcon.2) (by decide))]
  rw [if_pos trivial, hp]

/-- Claim C7 (confirmed): over a trajectory file with two blocks of three
data lines each, the coordinate generator yields exactly two frames in
file order, each one row per data line with the three Cartesian
coordinates taken from tokens 1-3; and a block is opened only by a line
beginning with `"PBC "` (marker plus space), so the attribute-style
`"PBC=ON"` header line opens no block (last conjunct: a file whose only
marker-like line is `"PBC=ON"` yields no frame even though a data line
and an `end` line follow). -/
theorem arc_coords_two_blocks
    (d1 d2 d3 e1 e2 e3 : String) (r1 r2 r3 s1 s2 s3 : List ℚ)
    (hd1 : parseCoordLine (pyStrip d1) = some r1)
    (hd2 : parseCoordLine (pyStrip d2) = some r2)
    (hd3 : parseCoordLine (pyStrip d3) = some r3)
    (he1 : parseCoordLine (pyStrip e1) = some s1)
    (he2 : parseCoordLine (pyStrip e2) = some s2)
    (he3 : parseCoordLine (pyStrip e3) = some s3)
    (hl1 : r1.length = 3) (hl2 : r2.length = 3) (hl3 : r3.length = 3)
    (hl4 : s1.length = 3) (hl5 : s2.length = 3) (hl6 : s3.length = 3)
    (hn1 : pyStartsWith (pyStrip d1) "end" = false)
    (hn2 : pyStartsWith (pyStrip d2) "end" = false)
    (hn3 : pyStartsWith (pyStrip d3) "end" = false)
    (hn4 : pyStartsWith (pyStrip e1) "end" = false)
    (hn5 : pyStartsWith (pyStrip e2) "end" = false)
    (hn6 : pyStartsWith (pyStrip e3) "end" = false) :
    coords_iterator ["!BIOSYM archive 3", "PBC=ON",
      "PBC   10.0 10.0 10.0 90.0 90.0 90.0 (P1)",
      d1, d2, d3, "end", "end",
      "PBC   10.0 10.0 10.0 90.0 90.0 90.0 (P1)",
      e1, e2, e3, "end", "end"]
      = .ok [[r1, r2, r3], [s1, s2, s3]] ∧
    (∀ fr ∈ [[r1, r2, r3], [s1, s2, s3]], fr.length = 3 ∧
      ∀ row ∈ fr, row.length = 3) ∧
    coords_iterator ["PBC=ON", "C 1.0 2.0 3.0", "end"] = .ok [] := by
  refine ⟨?_, ?_, by rfl⟩
  · rw [coords_iterator]
    rw [arcRun_cons_ok ⟨false, [], []⟩ "!BIOSYM archive 3" _
      ⟨false, [], []⟩ rfl]
    rw [arcRun_cons_ok ⟨false, [], []⟩ "PBC=ON" _ ⟨false, [], []⟩ rfl]
    rw [arcRun_cons_ok ⟨false, [], []⟩
      "PBC   10.0 10.0 10.0 90.0 90.0 90.0 (P1)" _ ⟨true, [], []⟩ rfl]
    rw [arcRun_cons_ok ⟨true, [], []⟩ d1 _ ⟨true, [r1], []⟩
      (arcLine_data [] [] d1 r1 hd1 hn1)]
    rw [arcRun_cons_ok ⟨true, [r1], []⟩ d2 _ ⟨true, [r1, r2], []⟩
      (arcLine_data [r1] [] d2 r2 hd2 hn2)]
    rw [arcRun_cons_ok ⟨true, [r1, r2], []⟩ d3 _ ⟨true, [r1, r2, r3], []⟩
      (arcLine_data [r1, r2] [] d3 r3 hd3 hn3)]
    rw [arcRun_cons_ok ⟨true, [r1, r2, r3], []⟩ "end" _
      ⟨false, [], [[r1, r2, r3]]⟩ rfl]
    rw [arcRun_cons_ok ⟨false, [], [[r1, r2, r3]]⟩ "end" _
      ⟨false, [], [[r1, r2, r3]]⟩ rfl]
    rw [arcRun_cons_ok ⟨false, [], [[r1, r2, r3]]⟩
      "PBC   10.0 10.0 10.0 90.0 90.0 90.0 (P1)" _
      ⟨true, [], [[r1, r2, r3]]⟩ rfl]
    rw [arcRun_cons_ok ⟨true, [], [[r1, r2, r3]]⟩ e1 _
      ⟨true, [s1], [[r1, r2, r3]]⟩
      (arcLine_data [] [[r1, r2, r3]] e1 s1 he1 hn4)]
    rw [arcRun_cons_ok ⟨true, [s1], [[r1, r2, r3]]⟩ e2 _
      ⟨true, [s1, s2], [[r1, r2, r3]]⟩
      (arcLine_data [s1] [[r1, r2, r3]] e2 s2 he2 hn5)]
    rw [arcRun_cons_ok ⟨true, [s1, s2], [[r1, r2, r3]]⟩ e3 _
      ⟨true, [s1, s2, s3], [[r1, r2, r3]]⟩
      (arcLine_data [s1, s2] [[r1, r2, r3]] e3 s3 he3 hn6)]
    rw [arcRun_cons_ok ⟨true, [s1, s2, s3], [[r1, r2, r3]]⟩ "end" _
      ⟨false, [], [[r1, r2, r3], [s1, s2, s3]]⟩ rfl]
    rw [arcRun_cons_ok ⟨false, [], [[r1, r2, r3], [s1, s2, s3]]⟩ "end" _
      ⟨false, [], [[r1, r2, r3], [s1, s2, s3]]⟩ rfl]
    rfl
  · intro fr hfr
    rcases List.mem_cons.mp hfr with hfr1 | hfr2
    · subst hfr1
      refine ⟨rfl, ?_⟩
      intro row hrow
      rcases List.mem_cons.mp hrow with h | h
      · exact h ▸ hl1
      · rcases List.mem_cons.mp h with h2 | h2
        · exact h2 ▸ hl2
        · rcases List.mem_cons.mp h2 with h3 | h3
          · exact h3 ▸ hl3
          · exact absurd h3 (List.not_mem_nil row)
    · rcases List.mem_cons.mp hfr2 with hfr3 | hfr3
      · subst hfr3
        refine ⟨rfl, ?_⟩
        intro row hrow
        rcases List.mem_cons.mp hrow with h | h
        · exact h ▸ hl4
        · rcases List.mem_cons.mp h with h2 | h2
          · exact h2 ▸ hl5
          · rcases List.mem_cons.mp h2 with h3 | h3
            · exact h3 ▸ hl6
            · exact absurd h3 (List.not_mem_nil row)
      · exact absurd hfr3 (List.not_mem_nil fr)

/-- Witness for C7: a concrete two-block trajectory file. -/
theorem arc_coords_two_blocks_witness :
    coords_iterator ["!BIOSYM archive 3", "PBC=ON",
      "PBC   10.0 10.0 10.0 90.0 90.0 90.0 (P1)",
      "C 1 2 3", "C 4 5 6", "O 7 8 9", "end", "end",
      "PBC   10.0 10.0 10.0 90.0 90.0 90.0 (P1)",
      "C 10 11 12", "C 13 14 15", "O 16 17 18", "end", "end"]
      = .ok [[[1, 2, 3], [4, 5, 6], [7, 8, 9]],
          [[10, 11, 12], [13, 14, 15], [16, 17, 18]]] ∧
    (∀ fr ∈ [[[(1 : ℚ), 2, 3], [4, 5, 6], [7, 8, 9]],
        [[10, 11, 12], [13, 14, 15], [16, 17, 18]]],
      fr.length = 3 ∧ ∀ row ∈ fr, row.length = 3) ∧
    coords_iterator ["PBC=ON", "C 1.0 2.0 3.0", "end"] = .ok [] :=
  arc_coords_two_blocks "C 1 2 3" "C 4 5 6" "O 7 8 9"
    "C 10 11 12" "C 13 14 15" "O 16 17 18"
    [1, 2, 3] [4, 5, 6] [7, 8, 9]
    [10, 11, 12] [13, 14, 15] [16, 17, 18]
    (by decide) (by decide) (by decide) (by decide) (by decide) (by decide)
    (by decide) (by decide) (by decide) (by decide) (by decide) (by decide)
    (by decide) (by decide) (by decide) (by decide) (by decide) (by decide)
